import Mathlib

/-!
Shallow embedding of the ensemble-sentiment-trader repository
(src/data_fetcher.py, src/ensemble.py, src/app.py, src/models/*.py).

Conventions used throughout this development:

* Python/numpy floats are idealised as exact rationals `Frac`.  Derived series
  values that can be NaN or infinite in pandas/numpy are modelled by the
  extended type `XQ` below, whose arithmetic and comparisons mirror IEEE
  semantics (NaN-poisoning, division by zero producing signed infinity or
  NaN, all comparisons with NaN false).
* A pandas `Timestamp` is a wall-clock value (an `Int`) together with an
  optional fixed UTC offset (`Option Int`); `none` is a timezone-naive
  value.  `tz_localize` keeps the wall-clock value and changes only the
  offset annotation, exactly as in pandas (daylight-saving transitions are
  outside the model).  Two timestamps of equal awareness compare by their
  instant (wall minus offset), which is how pandas compares them.
* A DataFrame from yfinance is a `Frame`: a date-indexed list of OHLCV
  rows sharing one timezone convention.  Column presence is tracked by
  flags so that a Python `KeyError` on a missing column can be modelled;
  column access returns `Except String`, and a model without a
  `try/except` propagates such errors, while a guarded model converts
  them to a vote of 0 exactly as its `except` clause does.
* The two external statistical libraries (the `arch` GARCH fit and the
  XGBoost/RandomForest classifier) are modelled as oracle parameters: a
  function from the data the library receives to either its numeric
  output or a raised exception.  Everything around the library call is
  embedded from the source.
-/

/-- Exact rational numbers in canonical form (coprime numerator and
positive denominator), used to idealise Python floats.  The operations
normalise through `Int.gcd`, so closed computations reduce under
`decide`. -/
structure Frac where
  n : Int
  d : Int
  deriving DecidableEq

/-- Canonicalise: positive denominator, coprime components. -/
def Frac.norm (a : Frac) : Frac :=
  let n := if a.d < 0 then -a.n else a.n
  let d := if a.d < 0 then -a.d else a.d
  let g : Int := Int.ofNat (n.gcd d)
  if g = 0 then ⟨0, 1⟩ else ⟨n / g, d / g⟩

/-- Addition. -/
def Frac.add (a b : Frac) : Frac := Frac.norm ⟨a.n * b.d + b.n * a.d, a.d * b.d⟩

/-- Negation (canonical when the input is). -/
def Frac.negF (a : Frac) : Frac := ⟨-a.n, a.d⟩

/-- Subtraction. -/
def Frac.sub (a b : Frac) : Frac := Frac.add a (Frac.negF b)

/-- Multiplication. -/
def Frac.mul (a b : Frac) : Frac := Frac.norm ⟨a.n * b.n, a.d * b.d⟩

/-- Division; division by zero yields 0 (callers that must mirror the
IEEE infinities test the divisor first, see `fdiv`). -/
def Frac.qdiv (a b : Frac) : Frac :=
  if b.n = 0 then ⟨0, 1⟩ else Frac.norm ⟨a.n * b.d, a.d * b.n⟩

/-- Absolute value (canonical when the input is). -/
def Frac.absF (a : Frac) : Frac := ⟨Int.ofNat a.n.natAbs, a.d⟩

/-- Strict order by cross-multiplication (sign-corrected). -/
def Frac.blt (a b : Frac) : Bool := (a.n * b.d - b.n * a.d) * (a.d * b.d) < 0

/-- Non-strict order by cross-multiplication (sign-corrected). -/
def Frac.ble (a b : Frac) : Bool := (a.n * b.d - b.n * a.d) * (a.d * b.d) ≤ 0

instance : OfNat Frac m := ⟨⟨Int.ofNat m, 1⟩⟩

instance : NatCast Frac := ⟨fun m => ⟨Int.ofNat m, 1⟩⟩

instance : IntCast Frac := ⟨fun m => ⟨m, 1⟩⟩

instance : Neg Frac := ⟨Frac.negF⟩

instance : Add Frac := ⟨Frac.add⟩

instance : Sub Frac := ⟨Frac.sub⟩

instance : Mul Frac := ⟨Frac.mul⟩

instance : Div Frac := ⟨Frac.qdiv⟩

instance : LT Frac := ⟨fun a b => Frac.blt a b = true⟩

instance : LE Frac := ⟨fun a b => Frac.ble a b = true⟩

instance (a b : Frac) : Decidable (a < b) :=
  inferInstanceAs (Decidable (Frac.blt a b = true))

instance (a b : Frac) : Decidable (a ≤ b) :=
  inferInstanceAs (Decidable (Frac.ble a b = true))

instance : Max Frac := ⟨fun a b => if Frac.blt a b then b else a⟩

instance : Min Frac := ⟨fun a b => if Frac.blt a b then a else b⟩

/-- The pair is a positive-over-positive representation (hence denotes a
strictly positive rational). -/
def Frac.isPos (a : Frac) : Prop := 0 < a.n ∧ 0 < a.d

/-- The pair is a nonnegative-over-positive representation (hence denotes
a non-negative rational). -/
def Frac.isNonneg (a : Frac) : Prop := 0 ≤ a.n ∧ 0 < a.d

/-- Sum of a list of fractions. -/
def Frac.sumL (l : List Frac) : Frac := l.foldl Frac.add ⟨0, 1⟩

instance instDecEqExcept {e a : Type} [DecidableEq e] [DecidableEq a] :
    DecidableEq (Except e a) := fun x y =>
  match x, y with
  | Except.error u, Except.error v =>
      if h : u = v then isTrue (by rw [h]) else isFalse (by simp [h])
  | Except.ok u, Except.ok v =>
      if h : u = v then isTrue (by rw [h]) else isFalse (by simp [h])
  | Except.error _, Except.ok _ => isFalse (by simp)
  | Except.ok _, Except.error _ => isFalse (by simp)

/-- IEEE-style extended rational: NaN, +inf, -inf, or a finite value. -/
inductive XQ where
  | nan : XQ
  | pinf : XQ
  | ninf : XQ
  | fin : Frac → XQ
  deriving DecidableEq

/-- `x` is NaN. -/
def XQ.isna : XQ → Bool
  | XQ.nan => true
  | _ => false

/-- `x` is a finite value. -/
def XQ.isFin : XQ → Bool
  | XQ.fin _ => true
  | _ => false

/-- IEEE negation. -/
def XQ.neg : XQ → XQ
  | XQ.nan => XQ.nan
  | XQ.pinf => XQ.ninf
  | XQ.ninf => XQ.pinf
  | XQ.fin a => XQ.fin (-a)

/-- IEEE addition: NaN poisons, `+inf + -inf = NaN`. -/
def XQ.add : XQ → XQ → XQ
  | XQ.nan, _ => XQ.nan
  | _, XQ.nan => XQ.nan
  | XQ.pinf, XQ.ninf => XQ.nan
  | XQ.ninf, XQ.pinf => XQ.nan
  | XQ.pinf, _ => XQ.pinf
  | _, XQ.pinf => XQ.pinf
  | XQ.ninf, _ => XQ.ninf
  | _, XQ.ninf => XQ.ninf
  | XQ.fin a, XQ.fin b => XQ.fin (a + b)

/-- IEEE subtraction. -/
def XQ.sub (a b : XQ) : XQ := a.add b.neg

/-- IEEE multiplication: NaN poisons, `inf * 0 = NaN`, sign rules otherwise. -/
def XQ.mul : XQ → XQ → XQ
  | XQ.nan, _ => XQ.nan
  | _, XQ.nan => XQ.nan
  | XQ.pinf, XQ.pinf => XQ.pinf
  | XQ.pinf, XQ.ninf => XQ.ninf
  | XQ.ninf, XQ.pinf => XQ.ninf
  | XQ.ninf, XQ.ninf => XQ.pinf
  | XQ.pinf, XQ.fin b => if b > 0 then XQ.pinf else if b < 0 then XQ.ninf else XQ.nan
  | XQ.fin a, XQ.pinf => if a > 0 then XQ.pinf else if a < 0 then XQ.ninf else XQ.nan
  | XQ.ninf, XQ.fin b => if b > 0 then XQ.ninf else if b < 0 then XQ.pinf else XQ.nan
  | XQ.fin a, XQ.ninf => if a > 0 then XQ.ninf else if a < 0 then XQ.pinf else XQ.nan
  | XQ.fin a, XQ.fin b => XQ.fin (a * b)

/-- IEEE division: NaN poisons, `inf/inf = NaN`, `x/0` is a signed
infinity (NaN for `0/0`), `finite/inf = 0`. -/
def XQ.div : XQ → XQ → XQ
  | XQ.nan, _ => XQ.nan
  | _, XQ.nan => XQ.nan
  | XQ.pinf, XQ.pinf => XQ.nan
  | XQ.pinf, XQ.ninf => XQ.nan
  | XQ.ninf, XQ.pinf => XQ.nan
  | XQ.ninf, XQ.ninf => XQ.nan
  | XQ.fin _, XQ.pinf => XQ.fin 0
  | XQ.fin _, XQ.ninf => XQ.fin 0
  | XQ.pinf, XQ.fin b => if b < 0 then XQ.ninf else XQ.pinf
  | XQ.ninf, XQ.fin b => if b < 0 then XQ.pinf else XQ.ninf
  | XQ.fin a, XQ.fin b =>
      if b.n = 0 then (if a > 0 then XQ.pinf else if a < 0 then XQ.ninf else XQ.nan)
      else XQ.fin (a / b)

/-- IEEE absolute value. -/
def XQ.abs : XQ → XQ
  | XQ.nan => XQ.nan
  | XQ.pinf => XQ.pinf
  | XQ.ninf => XQ.pinf
  | XQ.fin a => XQ.fin a.absF

/-- IEEE strict less-than: every comparison involving NaN is false. -/
def XQ.lt : XQ → XQ → Bool
  | XQ.nan, _ => false
  | _, XQ.nan => false
  | XQ.ninf, XQ.ninf => false
  | XQ.ninf, _ => true
  | _, XQ.ninf => false
  | XQ.pinf, _ => false
  | XQ.fin _, XQ.pinf => true
  | XQ.fin a, XQ.fin b => a < b

/-- IEEE less-or-equal: every comparison involving NaN is false. -/
def XQ.le : XQ → XQ → Bool
  | XQ.nan, _ => false
  | _, XQ.nan => false
  | XQ.ninf, _ => true
  | _, XQ.ninf => false
  | _, XQ.pinf => true
  | XQ.pinf, _ => false
  | XQ.fin a, XQ.fin b => a ≤ b

/-- Float division of two exact rationals with IEEE zero-divisor
behaviour. -/
def fdiv (a b : Frac) : XQ :=
  if b.n = 0 then (if a > 0 then XQ.pinf else if a < 0 then XQ.ninf else XQ.nan)
  else XQ.fin (a / b)

/-- `Series.diff()`: leading NaN, then successive differences. -/
def diffQ (xs : List Frac) : List XQ :=
  match xs with
  | [] => []
  | _ => XQ.nan :: List.zipWith (fun a b => XQ.fin (b - a)) xs xs.tail

/-- `Series.pct_change()`: leading NaN, then `(x_i - x_{i-1}) / x_{i-1}`
with IEEE zero-divisor behaviour. -/
def pctChange (xs : List Frac) : List XQ :=
  match xs with
  | [] => []
  | _ => XQ.nan :: List.zipWith (fun a b => fdiv (b - a) a) xs xs.tail

/-- `Series.pct_change(n)`: the first `n` entries are NaN, then
`(x_i - x_{i-n}) / x_{i-n}`. -/
def pctChangeN (n : Nat) (xs : List Frac) : List XQ :=
  (List.range xs.length).map (fun i =>
    if i < n then XQ.nan
    else fdiv (xs.getD i 0 - xs.getD (i - n) 0) (xs.getD (i - n) 0))

/-- The trailing window of width at most `w` ending at index `i`. -/
def windowEnd (w : Nat) (xs : List XQ) (i : Nat) : List XQ :=
  (xs.take (i + 1)).drop (i + 1 - w)

/-- `Series.rolling(window=w).mean()` with the pandas default
`min_periods = w`: NaN until a full window is available; within a full
window NaN poisons the mean (as the valid-observation count then drops
below `min_periods`) and infinities propagate through the sum. -/
def rollingMeanX (w : Nat) (xs : List XQ) : List XQ :=
  (List.range xs.length).map (fun i =>
    if i + 1 < w then XQ.nan
    else ((windowEnd w xs i).foldl XQ.add (XQ.fin 0)).div (XQ.fin (w : Frac)))

/-- Rolling mean of an all-finite series. -/
def rollingMeanQ (w : Nat) (xs : List Frac) : List XQ :=
  rollingMeanX w (xs.map XQ.fin)

/-- Sum of squared deviations from the mean of a finite window. -/
def sqDevSum (win : List Frac) : Frac :=
  let m : Frac := Frac.sumL win / (win.length : Frac)
  Frac.sumL (win.map (fun x => (x - m) * (x - m)))

/-- `Series.rolling(window=w).std()` modelled by the sample VARIANCE
(ddof = 1).  The source takes the square root, which is irrational in
general; the square root is a monotone bijection of the non-negatives, so
NaN-ness, zero-ness and the result of every comparison between two such
values are identical, and every place the embedding consumes these values
either only compares them with each other or feeds them to an opaque
classifier oracle.  A window containing NaN or an infinity yields NaN,
as pandas does for `std`. -/
def rollingVarX (w : Nat) (xs : List XQ) : List XQ :=
  (List.range xs.length).map (fun i =>
    if i + 1 < w then XQ.nan
    else
      let win := windowEnd w xs i
      if win.all XQ.isFin then
        XQ.fin (sqDevSum (win.map (fun x => match x with | XQ.fin q => q | _ => 0)) / ((w : Frac) - 1))
      else XQ.nan)

/-- `Series.mean()` over a slice, with the pandas default `skipna=True`. -/
def meanSkipNa (xs : List XQ) : XQ :=
  let valid := xs.filter (fun x => ¬ x.isna)
  if valid.isEmpty then XQ.nan
  else (valid.foldl XQ.add (XQ.fin 0)).div (XQ.fin (valid.length : Frac))

/-- `Series.ewm(span, adjust=False).mean()` recursion:
`y_0 = x_0`, `y_t = (1-α) y_{t-1} + α x_t` with `α = 2/(span+1)`. -/
def ewmGo (a : Frac) (prev : Frac) : List Frac → List Frac
  | [] => []
  | x :: xs =>
      let y := (1 - a) * prev + a * x
      y :: ewmGo a y xs

/-- `Series.ewm(span=s, adjust=False).mean()` on an all-finite series. -/
def ewmMean (s : Nat) (xs : List Frac) : List Frac :=
  match xs with
  | [] => []
  | x :: rest => x :: ewmGo (2 / ((s : Frac) + 1)) x rest

/-- The last `n` elements of a list. -/
def lastN (n : Nat) (xs : List α) : List α := xs.drop (xs.length - n)

/-- A pandas `Timestamp`: wall-clock value plus optional fixed UTC offset
(`none` = timezone-naive). -/
structure Timestamp where
  wall : Int
  tz : Option Int
  deriving DecidableEq

/-- The instant a timestamp denotes (wall minus offset; the offset of a
naive timestamp is taken as 0, which is sound because the code only ever
compares values of equal awareness). -/
def Timestamp.instant (t : Timestamp) : Int := t.wall - t.tz.getD 0

/-- One trading day's row: date label (wall-clock, in the frame's
timezone convention) and OHLCV values. -/
structure PricePoint where
  date : Int
  Open : Frac
  High : Frac
  Low : Frac
  Close : Frac
  Volume : Frac
  deriving DecidableEq

/-- A yfinance-style DataFrame: a date-indexed list of rows sharing one
timezone convention, with column-presence flags (a missing column makes
access raise `KeyError`, mirrored by `Except.error`). -/
structure Frame where
  tz : Option Int
  rows : List PricePoint
  hasOpen : Bool
  hasHigh : Bool
  hasLow : Bool
  hasClose : Bool
  hasVolume : Bool
  deriving DecidableEq

/-- `len(data)`. -/
def Frame.len (f : Frame) : Nat := f.rows.length

/-- The instant of an index label of this frame. -/
def Frame.inst (f : Frame) (d : Int) : Int := d - f.tz.getD 0

/-- `data['Close']` (raises `KeyError` when the column is absent). -/
def Frame.closeCol (f : Frame) : Except String (List Frac) :=
  if f.hasClose then Except.ok (f.rows.map (fun p => p.Close))
  else Except.error "KeyError: Close"

/-- `data['High']`. -/
def Frame.highCol (f : Frame) : Except String (List Frac) :=
  if f.hasHigh then Except.ok (f.rows.map (fun p => p.High))
  else Except.error "KeyError: High"

/-- `data['Low']`. -/
def Frame.lowCol (f : Frame) : Except String (List Frac) :=
  if f.hasLow then Except.ok (f.rows.map (fun p => p.Low))
  else Except.error "KeyError: Low"

/-- `data['Volume']`. -/
def Frame.volumeCol (f : Frame) : Except String (List Frac) :=
  if f.hasVolume then Except.ok (f.rows.map (fun p => p.Volume))
  else Except.error "KeyError: Volume"

/-- The timezone-normalisation step of `slice_data_to_date` and
`get_next_day_return` (src/data_fetcher.py lines 48-52 and 78-82): if the
index is aware and the target naive, `tz_localize(data.index.tz)` attaches
the index offset keeping the wall clock; if the index is naive and the
target aware, `tz_localize(None)` drops the offset keeping the wall
clock; otherwise the target is left alone. -/
def normalize_cutoff (tz : Option Int) (t : Timestamp) : Timestamp :=
  if tz.isSome ∧ t.tz.isNone then ⟨t.wall, tz⟩
  else if tz.isNone ∧ t.tz.isSome then ⟨t.wall, none⟩
  else t

/-- `slice_data_to_date` (src/data_fetcher.py lines 29-57):
`data[data.index <= target_date].copy()` after timezone normalisation.
The pandas comparison of two equally-aware timestamps is a comparison of
instants. -/
def slice_data_to_date (data : Frame) (target : Timestamp) : Frame :=
  let td := normalize_cutoff data.tz target
  { data with rows := data.rows.filter (fun p => data.inst p.date ≤ td.instant) }

/-- `data.loc[d, 'Close']` for an index label known to be present. -/
def Frame.locClose (f : Frame) (d : Int) : Except String Frac :=
  if f.hasClose then
    match (f.rows.filter (fun p => p.date = d)).head? with
    | some p => Except.ok p.Close
    | none => Except.error "KeyError: missing label"
  else Except.error "KeyError: Close"

/-- `get_next_day_return` (src/data_fetcher.py lines 60-103): snap the
target to the last index label at-or-before it, take the first strictly
later label, and return the percentage close-to-close return together
with that label; `(None, None)` is `Option.none`. -/
def get_next_day_return (data : Frame) (target : Timestamp) :
    Except String (Option (XQ × Int)) :=
  let td := normalize_cutoff data.tz target
  let idx := data.rows.map (fun p => p.date)
  let t0? : Option Int :=
    if idx.any (fun d => data.inst d = td.instant) then
      some (td.instant + data.tz.getD 0)
    else
      (idx.filter (fun d => data.inst d ≤ td.instant)).getLast?
  match t0? with
  | none => Except.ok none
  | some t0 =>
    match (idx.filter (fun d => t0 < d)).head? with
    | none => Except.ok none
    | some nextDate => do
      let targetClose ← data.locClose t0
      let nextClose ← data.locClose nextDate
      Except.ok (some ((fdiv (nextClose - targetClose) targetClose).mul (XQ.fin 100), nextDate))

/-- The specification's description of `next_day_return` (spec §4.1): the
percentage return from the trading day at-or-before the cutoff to the
next trading day strictly after it, plus that next day's label, and
unavailable when either day does not exist.  Stated directly from the
spec's words for comparison with `get_next_day_return`. -/
def next_day_return_spec (data : Frame) (target : Timestamp) : Option (XQ × Int) :=
  let td := normalize_cutoff data.tz target
  match (data.rows.filter (fun p => data.inst p.date ≤ td.instant)).getLast? with
  | none => none
  | some p0 =>
    match (data.rows.filter (fun p => p0.date < p.date)).head? with
    | none => none
    | some p1 => some ((fdiv (p1.Close - p0.Close) p0.Close).mul (XQ.fin 100), p1.date)

/-- `get_latest_trading_date` (src/data_fetcher.py lines 106-116). -/
def get_latest_trading_date (data : Frame) : Option Int :=
  (data.rows.map (fun p => p.date)).getLast?

/-- The vote and categorical signal label of one model (the
human-readable explanation strings carrying interpolated numbers are
presentation-only and not modelled). -/
structure VoteResult where
  vote : Int
  signal : String
  deriving DecidableEq

/-- `calculate_rsi` (src/models/rsi_model.py lines 10-28): simple rolling
mean of gains and of losses over `period`, `rs = gain/loss`,
`rsi = 100 - 100/(1+rs)`.  A NaN delta (the leading one) fails the
`delta > 0` test of `Series.where`, so it is replaced by 0 in both the
gain and the loss series. -/
def calculate_rsi (closes : List Frac) (period : Nat) : List XQ :=
  let delta := diffQ closes
  let gain := delta.map (fun d => match d with | XQ.fin q => if q > 0 then q else 0 | _ => 0)
  let loss := delta.map (fun d => match d with | XQ.fin q => if q < 0 then -q else 0 | _ => 0)
  List.zipWith
    (fun g l => (XQ.fin 100).sub ((XQ.fin 100).div ((XQ.fin 1).add (g.div l))))
    (rollingMeanQ period gain) (rollingMeanQ period loss)

/-- `get_rsi_vote` (src/models/rsi_model.py lines 31-88).  No
`try/except` in the source: a missing `Close` column propagates. -/
def get_rsi_vote (data : Frame) : Except String VoteResult :=
  if data.len < 15 then Except.ok ⟨0, "Insufficient Data"⟩
  else do
    let closes ← data.closeCol
    let current := (calculate_rsi closes 14).getLastD XQ.nan
    if current.isna then Except.ok ⟨0, "Neutral"⟩
    else if current.lt (XQ.fin 30) then Except.ok ⟨1, "Bullish (Oversold)"⟩
    else if (XQ.fin 70).lt current then Except.ok ⟨-1, "Bearish (Overbought)"⟩
    else Except.ok ⟨0, "Neutral"⟩

/-- `calculate_sma` (src/models/mean_reversion_model.py lines 10-21). -/
def calculate_sma (closes : List Frac) (period : Nat) : List XQ :=
  rollingMeanQ period closes

/-- `get_mean_reversion_vote` (src/models/mean_reversion_model.py lines
24-93).  No `try/except` in the source. -/
def get_mean_reversion_vote (data : Frame) : Except String VoteResult :=
  if data.len < 20 then Except.ok ⟨0, "Insufficient Data"⟩
  else do
    let closes ← data.closeCol
    let price := closes.getLastD 0
    let currentSma := (calculate_sma closes 20).getLastD XQ.nan
    if currentSma.isna then Except.ok ⟨0, "Neutral"⟩
    else
      let dev := (((XQ.fin price).sub currentSma).div currentSma).mul (XQ.fin 100)
      if dev.lt (XQ.fin (-2)) then Except.ok ⟨1, "Bullish (Below SMA)"⟩
      else if (XQ.fin 2).lt dev then Except.ok ⟨-1, "Bearish (Above SMA)"⟩
      else Except.ok ⟨0, "Neutral"⟩

/-- Oracle for the `arch` library's GARCH(1,1) fit and one-step forecast
(src/models/garch_model.py lines 43-70): given the percentage-return
series the library receives, it yields the pair
`(forecast_vol, current_conditional_vol)` or raises. -/
abbrev GarchOracle := List XQ → Except String (Frac × Frac)

/-- The body of the `try` block of `get_garch_vote`
(src/models/garch_model.py lines 42-89). -/
def garch_body (data : Frame) (fit : GarchOracle) : Except String VoteResult := do
  let closes ← data.closeCol
  let returnsX := ((pctChange closes).filter (fun x => ¬ x.isna)).map (fun x => x.mul (XQ.fin 100))
  if returnsX.length < 100 then Except.ok ⟨0, "Insufficient Data"⟩
  else do
    let vols ← fit returnsX
    if vols.1 < vols.2 then Except.ok ⟨3, "Bullish (Vol Decreasing)"⟩
    else Except.ok ⟨-3, "Bearish (Vol Increasing)"⟩

/-- `get_garch_vote` (src/models/garch_model.py lines 11-99): length
gate, then the `try` body with `except Exception` converting any raise to
vote 0 / "Model Failed". -/
def get_garch_vote (data : Frame) (fit : GarchOracle) : Except String VoteResult :=
  if data.len < 100 then Except.ok ⟨0, "Insufficient Data"⟩
  else
    match garch_body data fit with
    | Except.error _ => Except.ok ⟨0, "Model Failed"⟩
    | Except.ok r => Except.ok r

/-- The pandas `is_monotonic_increasing` test (strict version, also
ruling out duplicate labels) that `reindex(method='ffill')` requires. -/
def strictlyMono : List Int → Bool
  | [] => true
  | [_] => true
  | a :: b :: rest => (a < b) && strictlyMono (b :: rest)

/-- `vix_data.reindex(spy_data.index, method='ffill')` restricted to the
`Close` column (the only one read afterwards).  pandas raises when the
source index is not monotonic (or has duplicate labels) and when naive
and aware indexes are mixed; otherwise each target label receives the
last source observation at-or-before it (`none` = NaN when there is no
earlier observation). -/
def reindexFfill (src tgt : Frame) : Except String (List (Option Frac)) :=
  if ¬ strictlyMono (src.rows.map (fun p => p.date)) then
    Except.error "ValueError: index must be monotonic"
  else if src.tz.isSome ≠ tgt.tz.isSome then
    Except.error "TypeError: cannot join tz-naive with tz-aware"
  else if ¬ src.hasClose then Except.error "KeyError: Close"
  else
    Except.ok (tgt.rows.map (fun p =>
      ((src.rows.filter (fun q => src.inst q.date ≤ tgt.inst p.date)).getLast?).map
        (fun q => q.Close)))

/-- An aligned observation as an extended value (`none` = NaN). -/
def optX : Option Frac → XQ
  | none => XQ.nan
  | some q => XQ.fin q

/-- The body of the `try` block of `get_vix_regime_vote`
(src/models/vix_regime_model.py lines 56-147). -/
def vix_regime_body (spy vix : Frame) : Except String VoteResult := do
  let aligned ← reindexFfill vix spy
  match aligned.getLastD none with
  | none => Except.ok ⟨0, "VIX Data Missing"⟩
  | some currentVix => do
    let v5 : XQ :=
      if aligned.length ≥ 6 then optX (aligned.getD (aligned.length - 6) none)
      else XQ.fin currentVix
    let changePct : Frac :=
      match v5 with
      | XQ.fin q => if q > 0 then (currentVix - q) / q * 100 else 0
      | _ => 0
    let avg20 := meanSkipNa ((lastN 20 aligned).map optX)
    let spyCloses ← spy.closeCol
    let mom : XQ :=
      if spy.len ≥ 11 then
        ((fdiv (spyCloses.getLastD 0) (spyCloses.getD (spyCloses.length - 11) 0)).sub
          (XQ.fin 1)).mul (XQ.fin 100)
      else XQ.fin 0
    if currentVix > 25 then
      if changePct > 10 then Except.ok ⟨3, "Strong Bullish (Panic Buy)"⟩
      else if (avg20.mul (XQ.fin (6/5))).lt (XQ.fin currentVix) then
        Except.ok ⟨2, "Bullish (Fear Peak)"⟩
      else Except.ok ⟨0, "Neutral (High Fear)"⟩
    else if currentVix ≥ 15 then
      if changePct < -5 then Except.ok ⟨1, "Bullish (Risk-On)"⟩
      else if changePct > 5 then Except.ok ⟨-1, "Bearish (Risk-Off)"⟩
      else Except.ok ⟨0, "Neutral"⟩
    else
      if (XQ.fin 2).lt mom then Except.ok ⟨2, "Bullish (Momentum)"⟩
      else if mom.lt (XQ.fin (-2)) then Except.ok ⟨-2, "Bearish (Weak Momentum)"⟩
      else Except.ok ⟨1, "Slightly Bullish"⟩

/-- `get_vix_regime_vote` (src/models/vix_regime_model.py lines 10-156):
empty/short-VIX and short-SPY gates before the `try`, whose
`except Exception` converts any raise to vote 0 / "Error". -/
def get_vix_regime_vote (spy vix : Frame) : Except String VoteResult :=
  if vix.rows.isEmpty ∨ vix.len < 20 then Except.ok ⟨0, "No VIX Data"⟩
  else if spy.len < 20 then Except.ok ⟨0, "Insufficient Data"⟩
  else
    match vix_regime_body spy vix with
    | Except.error _ => Except.ok ⟨0, "Error"⟩
    | Except.ok r => Except.ok r

/-- `get_factor_vote` (src/models/factor_model.py lines 10-82).  The
source's `returns.rolling(20).std() * sqrt(252) * 100` series is
represented by the rolling sample variance (see `rollingVarX`): the
positive factor and the square root are strictly monotone, so the
NaN test and every `<` comparison between two entries of the series are
unchanged.  No `try/except` in the source. -/
def get_factor_vote (data : Frame) : Except String VoteResult :=
  if data.len < 21 then Except.ok ⟨0, "Insufficient Data"⟩
  else do
    let closes ← data.closeCol
    let current := closes.getLastD 0
    let p20 := closes.getD (closes.length - 21) 0
    let rollingVol := rollingVarX 20 (pctChange closes)
    let currentVol := rollingVol.getLastD XQ.nan
    if currentVol.isna then Except.ok ⟨0, "Neutral"⟩
    else
      let valid := rollingVol.filter (fun x => ¬ x.isna)
      let below := (valid.filter (fun x => x.lt currentVol)).length
      let pct : Frac := (below : Frac) / (valid.length : Frac) * 100
      if p20 < current ∧ pct ≤ 50 then Except.ok ⟨1, "Bullish"⟩
      else Except.ok ⟨0, "Neutral"⟩

/-- `get_technical_support_vote` (src/models/technical_support_model.py
lines 10-72).  No `try/except` in the source: a missing column
propagates (numpy scalar division by zero yields inf/NaN, not a raise). -/
def get_technical_support_vote (data : Frame) : Except String VoteResult :=
  if data.len < 50 then Except.ok ⟨0, "Insufficient Data"⟩
  else do
    let highs ← data.highCol
    let lows ← data.lowCol
    let closes ← data.closeCol
    let high50 := match lastN 50 highs with | [] => 0 | x :: xs => xs.foldl max x
    let low50 := match lastN 50 lows with | [] => 0 | x :: xs => xs.foldl min x
    let price := closes.getLastD 0
    let distHigh := ((fdiv (price - high50) high50).abs).mul (XQ.fin 100)
    let distLow := ((fdiv (price - low50) low50).abs).mul (XQ.fin 100)
    if distLow.le (XQ.fin 1) then Except.ok ⟨3, "Strong Bullish (Near Support)"⟩
    else if distHigh.le (XQ.fin 1) then Except.ok ⟨-3, "Strong Bearish (Near Resistance)"⟩
    else Except.ok ⟨0, "Neutral"⟩

/-- `calculate_macd` (src/models/macd_bb_model.py lines 10-30): EMA(12)
minus EMA(26), signal EMA(9) of the MACD line, and their difference. -/
def calculate_macd (closes : List Frac) : List Frac × List Frac × List Frac :=
  let macdLine := List.zipWith (fun a b => a - b) (ewmMean 12 closes) (ewmMean 26 closes)
  let signalLine := ewmMean 9 macdLine
  (macdLine, signalLine, List.zipWith (fun a b => a - b) macdLine signalLine)

/-- The Bollinger computation of `calculate_bollinger_bands`
(src/models/macd_bb_model.py lines 33-51) reduced to the pair
`(middle band, rolling sample variance)`; the upper/lower bands are
`mid ± 2·√variance` and are consumed only through `nearLowerBB` /
`nearUpperBB` below, which encode the source's comparisons with the
square root eliminated. -/
def calculate_bollinger (closes : List Frac) : List XQ × List XQ :=
  (rollingMeanQ 20 closes, rollingVarX 20 (closes.map XQ.fin))

/-- `(current_price - lower_band) / (upper_band - lower_band) < 0.2` with
`lower = mid - 2σ`, width `4σ`, `σ = √v`: for `σ > 0` this is
`mid - price > (6/5)σ`, i.e. `mid - price > 0 ∧ 25(mid-price)² > 36 v`;
for `σ = 0` the float quotient is `(price-mid)/0`, which is `< 0.2`
exactly when `price < mid` (`-inf`), false for `+inf` and NaN. -/
def nearLowerBB (price mid v : Frac) : Bool :=
  if v > 0 then decide (mid - price > 0 ∧ 25 * (mid - price) * (mid - price) > 36 * v)
  else decide (price < mid)

/-- `(upper_band - current_price) / (upper_band - lower_band) < 0.2`,
square root eliminated as in `nearLowerBB` (mirror image). -/
def nearUpperBB (price mid v : Frac) : Bool :=
  if v > 0 then decide (price - mid > 0 ∧ 25 * (price - mid) * (price - mid) > 36 * v)
  else decide (mid < price)

/-- `get_macd_bb_vote` (src/models/macd_bb_model.py lines 54-160).  No
`try/except` in the source. -/
def get_macd_bb_vote (data : Frame) : Except String VoteResult :=
  if data.len < 50 then Except.ok ⟨0, "Insufficient Data"⟩
  else do
    let closes ← data.closeCol
    let macd := calculate_macd closes
    let bb := calculate_bollinger closes
    let price := closes.getLastD 0
    let curMacd := macd.1.getLastD 0
    let prevMacd := macd.1.getD (macd.1.length - 2) 0
    let curSig := macd.2.1.getLastD 0
    let prevSig := macd.2.1.getD (macd.2.1.length - 2) 0
    match bb.1.getLastD XQ.nan, bb.2.getLastD XQ.nan with
    | XQ.fin mid, XQ.fin v =>
      let bullCross := prevMacd ≤ prevSig ∧ curMacd > curSig
      let bearCross := prevMacd ≥ prevSig ∧ curMacd < curSig
      if (curMacd > curSig ∨ bullCross) ∧ nearLowerBB price mid v then
        Except.ok ⟨1, "Bullish (Buy Dip)"⟩
      else if (curMacd < curSig ∨ bearCross) ∧ nearUpperBB price mid v then
        Except.ok ⟨-1, "Bearish (Sell Rip)"⟩
      else Except.ok ⟨0, "Neutral"⟩
    | _, _ => Except.ok ⟨0, "Neutral"⟩

/-- `calculate_adx` (src/models/market_regime_model.py lines 10-47).
`plus_dm[plus_dm < 0] = 0` leaves the leading NaN in place (NaN fails the
`< 0` test); the true range takes the row-wise max skipping NaN, the
rest is rolling means and IEEE divisions. -/
def calculate_adx (highs lows closes : List Frac) (period : Nat) : List XQ :=
  let plusDm := (diffQ highs).map (fun d =>
    match d with | XQ.fin q => XQ.fin (if q < 0 then 0 else q) | x => x)
  let minusDm := (diffQ lows).map (fun d =>
    match d with | XQ.fin q => XQ.fin (if -q < 0 then 0 else -q) | x => x)
  let tr1 : List XQ := (List.zipWith (fun h l => XQ.fin (h - l)) highs lows)
  let shiftClose : List XQ := match closes with
    | [] => []
    | _ => XQ.nan :: closes.dropLast.map XQ.fin
  let tr2 := List.zipWith (fun h c => ((XQ.fin h).sub c).abs) highs shiftClose
  let tr3 := List.zipWith (fun l c => ((XQ.fin l).sub c).abs) lows shiftClose
  let xmax2 : XQ → XQ → XQ := fun a b =>
    if a.isna then b else if b.isna then a else if a.lt b then b else a
  let tr := List.zipWith xmax2 (List.zipWith xmax2 tr1 tr2) tr3
  let atr := rollingMeanX period tr
  let plusDi := List.zipWith (fun p a => (XQ.fin 100).mul (p.div a)) (rollingMeanX period plusDm) atr
  let minusDi := List.zipWith (fun p a => (XQ.fin 100).mul (p.div a)) (rollingMeanX period minusDm) atr
  let dx := List.zipWith (fun p m => ((XQ.fin 100).mul ((p.sub m).abs)).div (p.add m)) plusDi minusDi
  rollingMeanX period dx

/-- `get_market_regime_vote` (src/models/market_regime_model.py lines
50-171).  ADX and trend strength only feed the regime label and the NaN
gate; the vote depends on the price against the 20/50/200-day moving
averages.  No `try/except` in the source. -/
def get_market_regime_vote (data : Frame) : Except String VoteResult :=
  if data.len < 200 then Except.ok ⟨0, "Insufficient Data"⟩
  else do
    let closes ← data.closeCol
    let ma20 := (rollingMeanQ 20 closes).getLastD XQ.nan
    let ma50 := (rollingMeanQ 50 closes).getLastD XQ.nan
    let ma200 := (rollingMeanQ 200 closes).getLastD XQ.nan
    let highs ← data.highCol
    let lows ← data.lowCol
    let cadx := (calculate_adx highs lows closes 14).getLastD XQ.nan
    let price := closes.getLastD 0
    if ma200.isna ∨ cadx.isna then Except.ok ⟨0, "Neutral"⟩
    else
      let above50 := ma50.lt (XQ.fin price)
      let above200 := ma200.lt (XQ.fin price)
      if above50 ∧ above200 then
        if (XQ.fin price).lt ma20 then Except.ok ⟨2, "Bullish (Buy Dip)"⟩
        else Except.ok ⟨1, "Bullish (Trending)"⟩
      else if ¬ above50 ∧ ¬ above200 then
        if ma20.lt (XQ.fin price) then Except.ok ⟨-2, "Bearish (Sell Rally)"⟩
        else Except.ok ⟨-1, "Bearish (Trending)"⟩
      else
        if (XQ.fin price).lt ma50 then Except.ok ⟨1, "Mean Reversion Buy"⟩
        else if ma50.lt (XQ.fin price) then Except.ok ⟨-1, "Mean Reversion Sell"⟩
        else Except.ok ⟨0, "Neutral"⟩

/-- One row of the feature frame built by `create_ml_features`
(src/models/ml_model.py lines 11-99).  The original OHLCV columns stay in
the frame but are finite by construction, so only the derived columns
matter for `dropna`; `Target` is an integer column and never NaN (a NaN
next-day return fails `> 0` and maps to 0). -/
structure MLRow where
  ret1 : XQ
  ret2 : XQ
  ret5 : XQ
  ret10 : XQ
  ret20 : XQ
  sma20 : XQ
  sma50 : XQ
  sma200 : XQ
  dist20 : XQ
  dist50 : XQ
  dist200 : XQ
  rsi : XQ
  macdHist : XQ
  bbWidth : XQ
  bbPos : XQ
  volChange : XQ
  volRel : XQ
  vol10 : XQ
  vol20 : XQ
  hlRange : XQ
  vixLevel : XQ
  vixChange : XQ
  nextDayRet : XQ
  target : Int
  deriving DecidableEq

/-- `df.dropna()` test: the row has a NaN in some (derived) column. -/
def MLRow.hasNa (r : MLRow) : Bool :=
  r.ret1.isna || r.ret2.isna || r.ret5.isna || r.ret10.isna || r.ret20.isna ||
  r.sma20.isna || r.sma50.isna || r.sma200.isna ||
  r.dist20.isna || r.dist50.isna || r.dist200.isna ||
  r.rsi.isna || r.macdHist.isna || r.bbWidth.isna || r.bbPos.isna ||
  r.volChange.isna || r.volRel.isna || r.vol10.isna || r.vol20.isna ||
  r.hlRange.isna || r.vixLevel.isna || r.vixChange.isna || r.nextDayRet.isna

/-- `Series.pct_change()` over an already-aligned series that may carry
leading NaNs (the VIX column after forward-fill): IEEE arithmetic on the
neighbouring values. -/
def pctChangeX (xs : List XQ) : List XQ :=
  match xs with
  | [] => []
  | _ => XQ.nan :: List.zipWith (fun a b => (b.sub a).div a) xs xs.tail

/-- The VIX feature column of `create_ml_features` (src/models/ml_model.py
lines 84-90): the forward-filled VIX closes when a non-empty VIX frame is
available, an all-NaN column otherwise. -/
def ml_vix_column (data : Frame) (vixData : Option Frame) (n : Nat) :
    Except String (List XQ) :=
  match vixData with
  | some v =>
    if ¬ v.rows.isEmpty then do
      let aligned ← reindexFfill v data
      Except.ok (aligned.map optX)
    else Except.ok (List.replicate n XQ.nan)
  | none => Except.ok (List.replicate n XQ.nan)

/-- The feature construction of `create_ml_features`
(src/models/ml_model.py lines 16-93): lagged returns, moving-average
distances, RSI, MACD histogram, Bollinger width and position, volume
features, rolling volatilities, high-low range, the (aligned) VIX level
and its change, and the next-day return/target.  Bollinger
width/position and the volatility features are expressed through the
rolling sample variance (see `rollingVarX`): they are consumed only by
the opaque classifier oracle, and their NaN/infinity pattern is
unchanged. -/
def ml_feature_rows (closes volumes highs lows : List Frac)
    (vixLevelCol : List XQ) : List MLRow :=
  let n := closes.length
  let r1 := pctChangeN 1 closes
  let r2 := pctChangeN 2 closes
  let r5 := pctChangeN 5 closes
  let r10 := pctChangeN 10 closes
  let r20 := pctChangeN 20 closes
  let s20 := rollingMeanQ 20 closes
  let s50 := rollingMeanQ 50 closes
  let s200 := rollingMeanQ 200 closes
  let d20 := List.zipWith (fun c s => ((XQ.fin c).sub s).div s) closes s20
  let d50 := List.zipWith (fun c s => ((XQ.fin c).sub s).div s) closes s50
  let d200 := List.zipWith (fun c s => ((XQ.fin c).sub s).div s) closes s200
  let rsiCol := calculate_rsi closes 14
  let macdHistCol := (calculate_macd closes).2.2.map XQ.fin
  let bbMid := rollingMeanQ 20 closes
  let bbVar := rollingVarX 20 (closes.map XQ.fin)
  let bbW := List.zipWith (fun v m => (v.mul (XQ.fin 4)).div m) bbVar bbMid
  let bbP := List.zipWith3 (fun c m v =>
    ((XQ.fin c).sub (m.sub (v.mul (XQ.fin 2)))).div (v.mul (XQ.fin 4))) closes bbMid bbVar
  let vChange := pctChangeN 1 volumes
  let vRel := List.zipWith (fun v m => (XQ.fin v).div m) volumes (rollingMeanQ 20 volumes)
  let v10 := rollingVarX 10 r1
  let v20 := rollingVarX 20 r1
  let hlr := List.zipWith3 (fun h l c => fdiv (h - l) c) highs lows closes
  let vixChangeCol := pctChangeX vixLevelCol
  let ndr : List XQ := (List.range n).map (fun i =>
    if i + 1 < n then XQ.fin (closes.getD (i + 1) 0 - closes.getD i 0) else XQ.nan)
  (List.range n).map (fun i =>
    let nd := ndr.getD i XQ.nan
    ({ ret1 := r1.getD i XQ.nan, ret2 := r2.getD i XQ.nan, ret5 := r5.getD i XQ.nan,
       ret10 := r10.getD i XQ.nan, ret20 := r20.getD i XQ.nan,
       sma20 := s20.getD i XQ.nan, sma50 := s50.getD i XQ.nan, sma200 := s200.getD i XQ.nan,
       dist20 := d20.getD i XQ.nan, dist50 := d50.getD i XQ.nan, dist200 := d200.getD i XQ.nan,
       rsi := rsiCol.getD i XQ.nan, macdHist := macdHistCol.getD i XQ.nan,
       bbWidth := bbW.getD i XQ.nan, bbPos := bbP.getD i XQ.nan,
       volChange := vChange.getD i XQ.nan, volRel := vRel.getD i XQ.nan,
       vol10 := v10.getD i XQ.nan, vol20 := v20.getD i XQ.nan,
       hlRange := hlr.getD i XQ.nan,
       vixLevel := vixLevelCol.getD i XQ.nan, vixChange := vixChangeCol.getD i XQ.nan,
       nextDayRet := nd,
       target := if (XQ.fin 0).lt nd then 1 else 0 } : MLRow))

/-- `create_ml_features` (src/models/ml_model.py lines 11-99): fetch the
OHLCV columns and the VIX feature column, build the feature rows, then
`dropna()`. -/
def create_ml_features (data : Frame) (vixData : Option Frame) :
    Except String (List MLRow) := do
  let closes ← data.closeCol
  let n := closes.length
  let volumes ← data.volumeCol
  let highs ← data.highCol
  let lows ← data.lowCol
  let vixLevelCol ← ml_vix_column data vixData n
  Except.ok ((ml_feature_rows closes volumes highs lows vixLevelCol).filter
    (fun r => ¬ r.hasNa))

/-- Oracle for the XGBoost/RandomForest train-and-predict step
(src/models/ml_model.py lines 133-201): given the surviving feature rows
(the source splits them into `X`, `y`, `X_pred` and selects feature
columns, all of which the opaque classifier absorbs), it yields the
predicted class and the probability of that class, or raises. -/
abbrev MLOracle := List MLRow → Except String (Nat × Frac)

/-- The body of the `try` block of `get_ml_vote`
(src/models/ml_model.py lines 132-226). -/
def ml_body (data : Frame) (vixData : Option Frame) (predict : MLOracle) :
    Except String VoteResult := do
  let df ← create_ml_features data vixData
  if df.length < 50 then Except.ok ⟨0, "Insufficient Data"⟩
  else do
    let res ← predict df
    if res.2 < 11/20 then Except.ok ⟨0, "Low Confidence"⟩
    else if res.1 = 1 then Except.ok ⟨1, "Bullish"⟩
    else Except.ok ⟨-1, "Bearish"⟩

/-- `get_ml_vote` (src/models/ml_model.py lines 102-234): 250-day gate,
then the `try` body with `except Exception` converting any raise to vote
0 / "Model Failed". -/
def get_ml_vote (data : Frame) (vixData : Option Frame) (predict : MLOracle) :
    Except String VoteResult :=
  if data.len < 250 then Except.ok ⟨0, "Insufficient Data"⟩
  else
    match ml_body data vixData predict with
    | Except.error _ => Except.ok ⟨0, "Model Failed"⟩
    | Except.ok r => Except.ok r

/-- The body of the `try` block of `get_sector_rotation_vote`
(src/models/sector_rotation_model.py lines 53-124): per-sector 10-day
momentum on the aligned closes (skipping sectors with short history,
missing aligned values, or a non-positive base price), then the
tech-dominance / majority-vote decision. -/
def sector_body (spy : Frame) (sectors : List (String × Frame)) :
    Except String VoteResult := do
  let moms ← sectors.foldlM (fun (acc : List (String × Frac)) sp => do
      if sp.2.len ≥ 11 then do
        let aligned ← reindexFfill sp.2 spy
        match aligned.getLastD none, aligned.getD (aligned.length - 11) none with
        | some cur, some p10 =>
          if p10 > 0 then Except.ok (acc ++ [(sp.1, (cur / p10 - 1) * 100)])
          else Except.ok acc
        | _, _ => Except.ok acc
      else Except.ok acc) []
  if moms.isEmpty then Except.ok ⟨0, "Data Issue"⟩
  else
    let strongCount := (moms.filter (fun m => m.2 > 0)).length
    let weakCount := (moms.filter (fun m => ¬ m.2 > 0)).length
    let xlk := ((moms.find? (fun m => m.1 = "XLK")).map (fun m => m.2)).getD 0
    if xlk > 2 then Except.ok ⟨2, "Strong Bullish (Tech Leading)"⟩
    else if xlk < -2 then Except.ok ⟨-2, "Strong Bearish (Tech Weak)"⟩
    else if strongCount > weakCount then Except.ok ⟨1, "Bullish (Sector Rotation Positive)"⟩
    else if weakCount > strongCount then Except.ok ⟨-1, "Bearish (Sector Rotation Negative)"⟩
    else Except.ok ⟨0, "Neutral"⟩

/-- `get_sector_rotation_vote` (src/models/sector_rotation_model.py lines
10-132): empty-sector and short-SPY gates before the `try`, whose
`except Exception` converts any raise to vote 0 / "Error". -/
def get_sector_rotation_vote (spy : Frame) (sectors : List (String × Frame)) :
    Except String VoteResult :=
  if sectors.isEmpty then Except.ok ⟨0, "No Sector Data"⟩
  else if spy.len < 15 then Except.ok ⟨0, "Insufficient Data"⟩
  else
    match sector_body spy sectors with
    | Except.error _ => Except.ok ⟨0, "Error"⟩
    | Except.ok r => Except.ok r

/-- The recommendation tier of `run_ensemble` (src/ensemble.py lines
131-146). -/
def recommendation_of (net : Int) : String :=
  if net ≥ 6 then "🚀 STRONG BUY"
  else if net ≥ 3 then "✅ BUY"
  else if net ≥ -2 then "➡️ NEUTRAL / HOLD"
  else if net ≥ -5 then "⚠️ SELL"
  else "🔴 STRONG SELL"

/-- The recommendation colour of `run_ensemble` (src/ensemble.py lines
131-146). -/
def rec_color_of (net : Int) : String :=
  if net ≥ 6 then "green"
  else if net ≥ 3 then "green"
  else if net ≥ -2 then "gray"
  else if net ≥ -5 then "orange"
  else "red"

/-- One entry of the ensemble breakdown (src/ensemble.py lines 52-123). -/
structure BreakdownEntry where
  model : String
  vote : Int
  weight : String
  signal : String
  deriving DecidableEq

/-- The aggregate returned by `run_ensemble` (src/ensemble.py lines
148-154). -/
structure EnsembleResult where
  net_vote : Int
  recommendation : String
  rec_color : String
  breakdown : List BreakdownEntry
  active_models : Nat
  deriving DecidableEq

/-- The conditional VIX Regime call of `run_ensemble` (src/ensemble.py
line 46): the model runs only when `vix_data is not None`, otherwise a
"No Data" stub is substituted. -/
def vix_entry_call (data : Frame) (vixData : Option Frame) : Except String VoteResult :=
  match vixData with
  | some v => get_vix_regime_vote data v
  | none => Except.ok ⟨0, "No Data"⟩

/-- The conditional Sector Rotation call of `run_ensemble`
(src/ensemble.py line 48): the model runs only when `sector_data` is
truthy (neither `None` nor empty). -/
def sector_entry_call (data : Frame) (sectorData : Option (List (String × Frame))) :
    Except String VoteResult :=
  match sectorData with
  | some s => if ¬ s.isEmpty then get_sector_rotation_vote data s
              else Except.ok ⟨0, "No Data"⟩
  | none => Except.ok ⟨0, "No Data"⟩

/-- `run_ensemble` (src/ensemble.py lines 20-154): run the ten models in
source order (an uncaught model exception aborts the whole call, which
the `Except` bind mirrors), substitute a "No Data" stub for the VIX
Regime model when `vix_data is None` and for the Sector Rotation model
when `sector_data` is falsy, then build the fixed-order breakdown, sum
the votes, count the non-zero voters, and classify. -/
def run_ensemble (data : Frame) (vixData : Option Frame)
    (sectorData : Option (List (String × Frame)))
    (garchFit : GarchOracle) (mlPredict : MLOracle) :
    Except String EnsembleResult := do
  let rsiR ← get_rsi_vote data
  let mrR ← get_mean_reversion_vote data
  let gR ← get_garch_vote data garchFit
  let mlR ← get_ml_vote data vixData mlPredict
  let faR ← get_factor_vote data
  let tsR ← get_technical_support_vote data
  let mbR ← get_macd_bb_vote data
  let vrR ← vix_entry_call data vixData
  let mkR ← get_market_regime_vote data
  let srR ← sector_entry_call data sectorData
  let breakdown : List BreakdownEntry := [
    ⟨"RSI Momentum", rsiR.vote, "±1", rsiR.signal⟩,
    ⟨"Mean Reversion", mrR.vote, "±1", mrR.signal⟩,
    ⟨"GARCH Volatility", gR.vote, "±3", gR.signal⟩,
    ⟨"ML XGBoost", mlR.vote, "±1", mlR.signal⟩,
    ⟨"Factor Model", faR.vote, "±1", faR.signal⟩,
    ⟨"Technical Support", tsR.vote, "±3", tsR.signal⟩,
    ⟨"MACD + Bollinger", mbR.vote, "±1", mbR.signal⟩,
    ⟨"VIX Regime", vrR.vote, "±3", vrR.signal⟩,
    ⟨"Market Regime", mkR.vote, "±2", mkR.signal⟩,
    ⟨"Sector Rotation", srR.vote, "±2", srR.signal⟩]
  let net := (breakdown.map (fun b => b.vote)).sum
  Except.ok ⟨net, recommendation_of net, rec_color_of net, breakdown,
    (breakdown.filter (fun b => b.vote ≠ 0)).length⟩

/-- One backtest record (src/app.py lines 311-319): the realised
next-day return and the retained per-model breakdown of that date. -/
structure BTRecord where
  actual_return : Frac
  breakdown : List BreakdownEntry
  deriving DecidableEq

/-- The hardcoded name list of the per-model analysis
(src/app.py lines 397-398). -/
def model_names : List String :=
  ["RSI Momentum", "Mean Reversion", "GARCH Volatility",
   "ML Random Forest", "Factor Model", "Technical Support"]

/-- One row of the per-model statistics table (src/app.py lines
421-426). -/
structure ModelStat where
  model : String
  accuracy : Frac
  predictions : Nat
  correct : Nat
  deriving DecidableEq

/-- The correct/total counters of the per-model loop
(src/app.py lines 400-417): for one model name, scan every record's
breakdown; a matching entry with a non-zero vote adds one to the total
and, when its vote sign matches the realised return sign, one to the
correct count. -/
def modelCounters (name : String) (results : List BTRecord) : Nat × Nat :=
  results.foldl (fun acc r =>
    r.breakdown.foldl (fun acc2 md =>
      if md.model = name ∧ md.vote ≠ 0 then
        ((if (0 < md.vote) = (0 < r.actual_return) then acc2.1 + 1 else acc2.1),
         acc2.2 + 1)
      else acc2) acc) (0, 0)

/-- `model_stats` (src/app.py lines 396-426): one `ModelStat` per
hardcoded name that accumulated a positive total. -/
def model_stats (results : List BTRecord) : List ModelStat :=
  model_names.filterMap (fun name =>
    let ct := modelCounters name results
    if ct.2 > 0 then
      some ⟨name, (ct.1 : Frac) / (ct.2 : Frac) * 100, ct.2, ct.1⟩
    else none)

/-- The per-model weight cap of the registration table
(src/ensemble.py lines 52-123): the magnitude bound named by each
breakdown entry's weight string. -/
def weight_cap (name : String) : Int :=
  if name = "GARCH Volatility" ∨ name = "Technical Support" ∨ name = "VIX Regime" then 3
  else if name = "Market Regime" ∨ name = "Sector Rotation" then 2
  else 1

/-- The record's breakdown contains a non-zero vote of the named model
(the property the per-model accuracy denominator is claimed to count). -/
def votedNonzero (name : String) (r : BTRecord) : Bool :=
  r.breakdown.any (fun md => md.model = name ∧ md.vote ≠ 0)

/-- A placeholder breakdown entry used as the default of `List.getD`. -/
def beDefault : BreakdownEntry := ⟨"", 0, "", ""⟩

/-! Concrete example data used by the witnesses and counterexamples. -/

/-- `n` trading days of constant prices, dates `0, 1, …`. -/
def exConstRows (n : Nat) : List PricePoint :=
  (List.range n).map (fun (i : Nat) => ⟨(i : Int), 100, 100, 100, 100, 100⟩)

/-- `n` trading days of strictly rising closes. -/
def exRiseRows (n : Nat) : List PricePoint :=
  (List.range n).map (fun (i : Nat) => ⟨(i : Int), 100, 100, 100, 100 + (i : Frac), 100⟩)

/-- `n` trading days whose closes alternate between 100 and 101 (keeps
every 20-day window non-degenerate). -/
def exAltRows (n : Nat) : List PricePoint :=
  (List.range n).map (fun (i : Nat) =>
    ⟨(i : Int), 100, 102, 99, if i % 2 = 0 then 100 else 101, 1000⟩)

/-- `n` rows with strictly decreasing dates (a non-monotonic index). -/
def exDescRows (n : Nat) : List PricePoint :=
  (List.range n).map (fun (i : Nat) => ⟨(n : Int) - (i : Int), 100, 100, 100, 20, 100⟩)

/-- An empty, fully-columned frame. -/
def exEmpty : Frame := ⟨none, [], true, true, true, true, true⟩

/-- 50 constant rows with the `High` column missing. -/
def exNoHigh50 : Frame := ⟨none, exConstRows 50, true, false, true, true, true⟩

/-- 250 constant rows with the `Close` column missing. -/
def exNoClose250 : Frame := ⟨none, exConstRows 250, true, true, true, false, true⟩

/-- A 20-row frame with a non-monotonic index (reindexing raises). -/
def exDesc20 : Frame := ⟨none, exDescRows 20, true, true, true, true, true⟩

/-- An 11-row frame with a non-monotonic index. -/
def exDesc11 : Frame := ⟨none, exDescRows 11, true, true, true, true, true⟩

/-- A 15-row frame with strictly rising closes (RSI = 100). -/
def exRise15 : Frame := ⟨none, exRiseRows 15, true, true, true, true, true⟩

/-- A timezone-aware three-day frame with closes 5, 6, 9. -/
def exAware3 : Frame :=
  ⟨some 60, [⟨10, 0, 0, 0, 5, 0⟩, ⟨20, 0, 0, 0, 6, 0⟩, ⟨30, 0, 0, 0, 9, 0⟩],
   true, true, true, true, true⟩

/-- A 250-day alternating-price frame (all columns present). -/
def exAlt250 : Frame := ⟨none, exAltRows 250, true, true, true, true, true⟩

/-- The closing price of day `i` of the rising example series. -/
def exIncClose (i : Nat) : Frac := ⟨100 + (i : Int), 1⟩

/-- `n` trading days with closes rising by 1 per day and constant
open/high/low/volume. -/
def exIncRows (n : Nat) : List PricePoint :=
  (List.range n).map (fun (i : Nat) => ⟨(i : Int), 100, 102, 99, exIncClose i, 1000⟩)

/-- A 250-day frame of rising closes (all columns present); every
feature window of `create_ml_features` is fully formed from day 199 on. -/
def exInc250 : Frame := ⟨none, exIncRows 250, true, true, true, true, true⟩

/-- The close column of `exInc250` in mapped-range form. -/
def exIncCloses : List Frac := (List.range 250).map exIncClose

/-- The volume column of `exInc250`. -/
def exIncVols : List Frac := (List.range 250).map (fun _ => 1000)

/-- The high column of `exInc250`. -/
def exIncHighs : List Frac := (List.range 250).map (fun _ => 102)

/-- The low column of `exInc250`. -/
def exIncLows : List Frac := (List.range 250).map (fun _ => 99)

/-- A 250-day volatility-index frame aligned to `exAlt250`. -/
def exVixA : Frame := ⟨none, exConstRows 250, true, true, true, true, true⟩

/-- The forward-filled VIX feature column that `create_ml_features`
builds from `exVixA` aligned to `exInc250`. -/
def exIncVix : List XQ :=
  (exInc250.rows.map (fun p =>
    ((exVixA.rows.filter (fun q => exVixA.inst q.date ≤ exInc250.inst p.date)).getLast?).map
      (fun q => q.Close))).map optX

/-- A GARCH oracle whose fit converges with forecast vol 1 below current
vol 2. -/
def exGarchOk : GarchOracle := fun _ => Except.ok (1, 2)

/-- A classifier oracle predicting class 1 with probability 9/10. -/
def exMlOk : MLOracle := fun _ => Except.ok (1, 9/10)

/-- The ensemble result on the empty frame (all models short of
history). -/
def exResult0 : EnsembleResult :=
  ⟨0, "➡️ NEUTRAL / HOLD", "gray",
   [⟨"RSI Momentum", 0, "±1", "Insufficient Data"⟩,
    ⟨"Mean Reversion", 0, "±1", "Insufficient Data"⟩,
    ⟨"GARCH Volatility", 0, "±3", "Insufficient Data"⟩,
    ⟨"ML XGBoost", 0, "±1", "Insufficient Data"⟩,
    ⟨"Factor Model", 0, "±1", "Insufficient Data"⟩,
    ⟨"Technical Support", 0, "±3", "Insufficient Data"⟩,
    ⟨"MACD + Bollinger", 0, "±1", "Insufficient Data"⟩,
    ⟨"VIX Regime", 0, "±3", "No Data"⟩,
    ⟨"Market Regime", 0, "±2", "Insufficient Data"⟩,
    ⟨"Sector Rotation", 0, "±2", "No Data"⟩],
   0⟩

/-- The ensemble result on the empty frame when an empty VIX frame is
passed (differs from `exResult0` only in the VIX Regime signal). -/
def exResult0v : EnsembleResult :=
  ⟨0, "➡️ NEUTRAL / HOLD", "gray",
   [⟨"RSI Momentum", 0, "±1", "Insufficient Data"⟩,
    ⟨"Mean Reversion", 0, "±1", "Insufficient Data"⟩,
    ⟨"GARCH Volatility", 0, "±3", "Insufficient Data"⟩,
    ⟨"ML XGBoost", 0, "±1", "Insufficient Data"⟩,
    ⟨"Factor Model", 0, "±1", "Insufficient Data"⟩,
    ⟨"Technical Support", 0, "±3", "Insufficient Data"⟩,
    ⟨"MACD + Bollinger", 0, "±1", "Insufficient Data"⟩,
    ⟨"VIX Regime", 0, "±3", "No VIX Data"⟩,
    ⟨"Market Regime", 0, "±2", "Insufficient Data"⟩,
    ⟨"Sector Rotation", 0, "±2", "No Data"⟩],
   0⟩

/-- A full ten-entry breakdown of one backtest date on which RSI voted
+1, ML voted +1 and Market Regime voted +2. -/
def exBreakdownFull : List BreakdownEntry :=
  [⟨"RSI Momentum", 1, "±1", "Bullish (Oversold)"⟩,
   ⟨"Mean Reversion", 0, "±1", "Neutral"⟩,
   ⟨"GARCH Volatility", 0, "±3", "Model Failed"⟩,
   ⟨"ML XGBoost", 1, "±1", "Bullish"⟩,
   ⟨"Factor Model", 0, "±1", "Neutral"⟩,
   ⟨"Technical Support", 0, "±3", "Neutral"⟩,
   ⟨"MACD + Bollinger", 0, "±1", "Neutral"⟩,
   ⟨"VIX Regime", 0, "±3", "No Data"⟩,
   ⟨"Market Regime", 2, "±2", "Bullish (Buy Dip)"⟩,
   ⟨"Sector Rotation", 0, "±2", "No Data"⟩]

/-- A one-date backtest result list with a realised up-move. -/
def exBT : List BTRecord := [⟨1, exBreakdownFull⟩]

/-! ## Theorems -/

set_option maxRecDepth 200000

/-- C2: the recommendation bands form a total non-overlapping partition
of the integers with the stated breakpoints, and the 6/5 boundary is
exact. -/
theorem C2_recommendation_partition :
    (∀ n : Int,
      (recommendation_of n = "🚀 STRONG BUY" ↔ 6 ≤ n) ∧
      (recommendation_of n = "✅ BUY" ↔ 3 ≤ n ∧ n ≤ 5) ∧
      (recommendation_of n = "➡️ NEUTRAL / HOLD" ↔ -2 ≤ n ∧ n ≤ 2) ∧
      (recommendation_of n = "⚠️ SELL" ↔ -5 ≤ n ∧ n ≤ -3) ∧
      (recommendation_of n = "🔴 STRONG SELL" ↔ n ≤ -6)) ∧
    recommendation_of 6 = "🚀 STRONG BUY" ∧ recommendation_of 5 = "✅ BUY" := by
  refine ⟨fun n => ?_, by decide, by decide⟩
  unfold recommendation_of
  split_ifs with h1 h2 h3 h4 <;>
    refine ⟨?_, ?_, ?_, ?_, ?_⟩ <;> simp <;> omega

/-- On a strictly sorted list, a downward-closed date bound filters to
the maximal prefix. -/
theorem filter_le_eq_takeWhile (l : List PricePoint) (key : PricePoint → Int) (c : Int)
    (hs : List.Pairwise (fun a b => key a < key b) l) :
    l.filter (fun p => key p ≤ c) = l.takeWhile (fun p => key p ≤ c) := by
  induction l with
  | nil => rfl
  | cons a l ih =>
    rcases List.pairwise_cons.mp hs with ⟨ha, hl⟩
    by_cases h : key a ≤ c
    · simp only [List.filter_cons, List.takeWhile_cons, h, decide_eq_true_eq, if_pos, ih hl]
    · simp only [List.filter_cons, List.takeWhile_cons]
      rw [if_neg (by simpa using h), if_neg (by simpa using h)]
      apply List.filter_eq_nil_iff.mpr
      intro p hp
      simp only [decide_eq_true_eq]
      have := ha p hp
      omega

/-- C1: `slice_data_to_date` never keeps a row beyond the normalised
cutoff, preserves the timezone convention, and on a sorted master series
returns exactly the maximal prefix of dates at-or-before the cutoff (so
a cutoff absent from the series acts as the most recent date before
it). -/
theorem C1_slice_to_date_maximal (f : Frame) (t : Timestamp) :
    (∀ p ∈ (slice_data_to_date f t).rows,
        f.inst p.date ≤ (normalize_cutoff f.tz t).instant) ∧
    (slice_data_to_date f t).tz = f.tz ∧
    (List.Pairwise (fun a b => a.date < b.date) f.rows →
      (slice_data_to_date f t).rows =
        f.rows.takeWhile (fun p => f.inst p.date ≤ (normalize_cutoff f.tz t).instant)) := by
  refine ⟨?_, rfl, ?_⟩
  · intro p hp
    have := List.of_mem_filter hp
    simpa using this
  · intro hs
    have hs2 : List.Pairwise (fun a b => f.inst a.date < f.inst b.date) f.rows := by
      apply hs.imp
      intro a b hab
      unfold Frame.inst
      omega
    exact filter_le_eq_takeWhile f.rows (fun p => f.inst p.date)
      ((normalize_cutoff f.tz t).instant) hs2

/-- C1 witness: a timezone-aware frame sliced at a naive cutoff that is
absent from the series. -/
theorem C1_slice_to_date_maximal_witness :
    List.Pairwise (fun a b => a.date < b.date) exAware3.rows ∧
    (slice_data_to_date exAware3 ⟨25, none⟩).rows =
      exAware3.rows.takeWhile
        (fun p => exAware3.inst p.date ≤ (normalize_cutoff exAware3.tz ⟨25, none⟩).instant) ∧
    (slice_data_to_date exAware3 ⟨25, none⟩).rows.map (fun p => p.date) = [10, 20] :=
  ⟨by decide, (C1_slice_to_date_maximal exAware3 ⟨25, none⟩).2.2 (by decide), by decide⟩

/-- C9: re-slicing an already-sliced window at the same or a later
cutoff returns the identical window. -/
theorem C9_slice_idempotent (f : Frame) (c c2 : Timestamp)
    (h : (normalize_cutoff f.tz c).instant ≤ (normalize_cutoff f.tz c2).instant) :
    slice_data_to_date (slice_data_to_date f c) c2 = slice_data_to_date f c := by
  unfold slice_data_to_date
  simp only
  congr 1
  rw [List.filter_filter]
  apply List.filter_congr
  intro p _
  by_cases hp1 : f.inst p.date ≤ (normalize_cutoff f.tz c).instant
  · simp [Frame.inst] at hp1 ⊢
    omega
  · simp [Frame.inst] at hp1 ⊢
    omega

/-- C9 witness: slicing at wall-clock 15 and re-slicing at a later aware
cutoff. -/
theorem C9_slice_idempotent_witness :
    (normalize_cutoff exAware3.tz ⟨15, none⟩).instant ≤
      (normalize_cutoff exAware3.tz ⟨40, some 0⟩).instant ∧
    slice_data_to_date (slice_data_to_date exAware3 ⟨15, none⟩) ⟨40, some 0⟩ =
      slice_data_to_date exAware3 ⟨15, none⟩ :=
  ⟨by decide, C9_slice_idempotent exAware3 ⟨15, none⟩ ⟨40, some 0⟩ (by decide)⟩

/-- Reduction of an `Except` bind on a success. -/
theorem exbind_ok {e a b : Type} (x : a) (f : a → Except e b) :
    (Except.ok x >>= f) = f x := rfl

/-- Reduction of an `Except` bind on a failure. -/
theorem exbind_err {e a b : Type} (m : e) (f : a → Except e b) :
    ((Except.error m : Except e a) >>= f) = Except.error m := rfl

/-- C3: every successful ensemble run is internally consistent: the net
vote is the exact sum of the breakdown votes and the active-model count
is the number of non-zero breakdown votes. -/
theorem C3_ensemble_invariants (data : Frame) (vixData : Option Frame)
    (sectorData : Option (List (String × Frame)))
    (garchFit : GarchOracle) (mlPredict : MLOracle) (r : EnsembleResult)
    (h : run_ensemble data vixData sectorData garchFit mlPredict = Except.ok r) :
    r.net_vote = (r.breakdown.map (fun b => b.vote)).sum ∧
    r.active_models = (r.breakdown.filter (fun b => b.vote ≠ 0)).length := by
  unfold run_ensemble at h
  cases h1 : get_rsi_vote data <;> rw [h1] at h
  case error => rw [exbind_err] at h; cases h
  rw [exbind_ok] at h
  cases h2 : get_mean_reversion_vote data <;> rw [h2] at h
  case error => rw [exbind_err] at h; cases h
  rw [exbind_ok] at h
  cases h3 : get_garch_vote data garchFit <;> rw [h3] at h
  case error => rw [exbind_err] at h; cases h
  rw [exbind_ok] at h
  cases h4 : get_ml_vote data vixData mlPredict <;> rw [h4] at h
  case error => rw [exbind_err] at h; cases h
  rw [exbind_ok] at h
  cases h5 : get_factor_vote data <;> rw [h5] at h
  case error => rw [exbind_err] at h; cases h
  rw [exbind_ok] at h
  cases h6 : get_technical_support_vote data <;> rw [h6] at h
  case error => rw [exbind_err] at h; cases h
  rw [exbind_ok] at h
  cases h7 : get_macd_bb_vote data <;> rw [h7] at h
  case error => rw [exbind_err] at h; cases h
  rw [exbind_ok] at h
  cases h8 : vix_entry_call data vixData <;> rw [h8] at h
  case error => rw [exbind_err] at h; cases h
  rw [exbind_ok] at h
  cases h9 : get_market_regime_vote data <;> rw [h9] at h
  case error => rw [exbind_err] at h; cases h
  rw [exbind_ok] at h
  cases h10 : sector_entry_call data sectorData <;> rw [h10] at h
  case error => rw [exbind_err] at h; cases h
  rw [exbind_ok] at h
  injection h with h
  subst h
  exact ⟨rfl, rfl⟩

/-- C3 witness: the ensemble run on the empty frame. -/
theorem C3_ensemble_invariants_witness :
    run_ensemble exEmpty none none exGarchOk exMlOk = Except.ok exResult0 ∧
    exResult0.net_vote = (exResult0.breakdown.map (fun b => b.vote)).sum ∧
    exResult0.active_models =
      (exResult0.breakdown.filter (fun b => b.vote ≠ 0)).length :=
  ⟨by decide,
   C3_ensemble_invariants exEmpty none none exGarchOk exMlOk exResult0 (by decide)⟩

/-- An extended value below 30 is not above 70. -/
theorem xq_lt30_not_gt70 (x : XQ) (h30 : x.lt (XQ.fin 30) = true) :
    (XQ.fin 70).lt x = false := by
  cases x with
  | nan => rfl
  | pinf => simp [XQ.lt] at h30
  | ninf => rfl
  | fin q =>
    have hq : Frac.blt q 30 = true := of_decide_eq_true h30
    have e30 : (q.n * 1 - 30 * q.d) * (q.d * 1) < 0 := of_decide_eq_true hq
    apply decide_eq_false
    intro h70
    have e70 : ((70:Int) * q.d - q.n * 1) * (1 * q.d) < 0 := of_decide_eq_true h70
    nlinarith [sq_nonneg q.d]

/-- C4: with at least 15 days of history the RSI vote is +1 exactly when
the computed 14-period RSI is below 30, -1 exactly when it is above 70,
and nothing but -1/0/+1 is possible; shorter windows yield vote 0 with
the "Insufficient Data" label. -/
theorem C4_rsi_vote_rule (d : Frame) :
    (∀ r, 15 ≤ d.len → d.hasClose = true → get_rsi_vote d = Except.ok r →
      ((r.vote = 1 ↔
          ((calculate_rsi (d.rows.map (fun p => p.Close)) 14).getLastD XQ.nan).lt
            (XQ.fin 30) = true) ∧
       (r.vote = -1 ↔
          (XQ.fin 70).lt
            ((calculate_rsi (d.rows.map (fun p => p.Close)) 14).getLastD XQ.nan) = true) ∧
       (r.vote = 1 ∨ r.vote = 0 ∨ r.vote = -1))) ∧
    (d.len < 15 → get_rsi_vote d = Except.ok ⟨0, "Insufficient Data"⟩) := by
  constructor
  · intro r hlen hc h
    unfold get_rsi_vote at h
    rw [if_neg (by omega)] at h
    unfold Frame.closeCol at h
    rw [if_pos hc, exbind_ok] at h
    generalize hx : (calculate_rsi (d.rows.map (fun p => p.Close)) 14).getLastD XQ.nan = x at h ⊢
    by_cases hna : x.isna = true
    · rw [if_pos hna] at h
      injection h with h
      subst h
      have hxn : x = XQ.nan := by
        cases x <;> simp [XQ.isna] at hna ⊢
      subst hxn
      refine ⟨?_, ?_, ?_⟩ <;> simp [XQ.lt]
    · rw [if_neg hna] at h
      by_cases h30 : x.lt (XQ.fin 30) = true
      · rw [if_pos h30] at h
        injection h with h
        subst h
        refine ⟨by simp [h30], ?_, by simp⟩
        rw [xq_lt30_not_gt70 x h30]
        simp
      · rw [if_neg h30] at h
        by_cases h70 : (XQ.fin 70).lt x = true
        · rw [if_pos h70] at h
          injection h with h
          subst h
          exact ⟨by simp [h30], by simp [h70], by simp⟩
        · rw [if_neg h70] at h
          injection h with h
          subst h
          exact ⟨by simp [h30], by simp [h70], by simp⟩
  · intro hlen
    unfold get_rsi_vote
    rw [if_pos hlen]

/-- C4 witness: 15 strictly rising closes drive the RSI to 100 and the
vote to -1. -/
theorem C4_rsi_vote_rule_witness :
    15 ≤ exRise15.len ∧ exRise15.hasClose = true ∧
    get_rsi_vote exRise15 = Except.ok ⟨-1, "Bearish (Overbought)"⟩ ∧
    (((-1 : Int) = -1) ↔
      (XQ.fin 70).lt
        ((calculate_rsi (exRise15.rows.map (fun p => p.Close)) 14).getLastD XQ.nan) = true) :=
  ⟨by decide, rfl, by decide,
   ((C4_rsi_vote_rule exRise15).1 ⟨-1, "Bearish (Overbought)"⟩ (by decide) rfl
     (by decide)).2.1⟩

/-- C5 counterexample: a 50-day window whose `High` column is missing
makes the Technical Support model raise, and the exception escapes
`run_ensemble` — the ensemble returns no result at all instead of ten
VoteResults. -/
theorem C5_counterexample :
    run_ensemble exNoHigh50 none none exGarchOk exMlOk = Except.error "KeyError: High" ∧
    (get_technical_support_vote exNoHigh50).isOk = false := by
  constructor <;> decide

/-- C5 (amended): the four models with a `try/except` (GARCH, ML, VIX
Regime, Sector Rotation) never propagate an exception — they always
return a VoteResult, and a raise inside their guarded body is converted
to vote 0 with signal "Model Failed" (GARCH, ML) or "Error" (VIX Regime,
Sector Rotation); the other six models have no handler. -/
theorem C5_guarded_models (d : Frame) (g : GarchOracle) (vx : Option Frame)
    (m : MLOracle) (v : Frame) (s : List (String × Frame)) :
    (get_garch_vote d g).isOk = true ∧
    (get_ml_vote d vx m).isOk = true ∧
    (get_vix_regime_vote d v).isOk = true ∧
    (get_sector_rotation_vote d s).isOk = true ∧
    (¬ d.len < 100 → (garch_body d g).isOk = false →
       get_garch_vote d g = Except.ok ⟨0, "Model Failed"⟩) ∧
    (¬ d.len < 250 → (ml_body d vx m).isOk = false →
       get_ml_vote d vx m = Except.ok ⟨0, "Model Failed"⟩) ∧
    (¬ (v.rows.isEmpty ∨ v.len < 20) → ¬ d.len < 20 → (vix_regime_body d v).isOk = false →
       get_vix_regime_vote d v = Except.ok ⟨0, "Error"⟩) ∧
    (¬ s.isEmpty → ¬ d.len < 15 → (sector_body d s).isOk = false →
       get_sector_rotation_vote d s = Except.ok ⟨0, "Error"⟩) := by
  refine ⟨?_, ?_, ?_, ?_, ?_, ?_, ?_, ?_⟩
  · unfold get_garch_vote
    by_cases h : d.len < 100
    · rw [if_pos h]; rfl
    · rw [if_neg h]
      cases hb : garch_body d g <;> rfl
  · unfold get_ml_vote
    by_cases h : d.len < 250
    · rw [if_pos h]; rfl
    · rw [if_neg h]
      cases hb : ml_body d vx m <;> rfl
  · unfold get_vix_regime_vote
    by_cases h : v.rows.isEmpty = true ∨ v.len < 20
    · rw [if_pos h]; rfl
    · rw [if_neg h]
      by_cases h2 : d.len < 20
      · rw [if_pos h2]; rfl
      · rw [if_neg h2]
        cases hb : vix_regime_body d v <;> rfl
  · unfold get_sector_rotation_vote
    by_cases h : s.isEmpty = true
    · rw [if_pos h]; rfl
    · rw [if_neg h]
      by_cases h2 : d.len < 15
      · rw [if_pos h2]; rfl
      · rw [if_neg h2]
        cases hb : sector_body d s <;> rfl
  · intro h hb
    cases hbv : garch_body d g
    · unfold get_garch_vote
      rw [if_neg h, hbv]
    · rw [hbv] at hb; cases hb
  · intro h hb
    cases hbv : ml_body d vx m
    · unfold get_ml_vote
      rw [if_neg h, hbv]
    · rw [hbv] at hb; cases hb
  · intro h h2 hb
    cases hbv : vix_regime_body d v
    · unfold get_vix_regime_vote
      rw [if_neg h, if_neg h2, hbv]
    · rw [hbv] at hb; cases hb
  · intro h h2 hb
    cases hbv : sector_body d s
    · unfold get_sector_rotation_vote
      rw [if_neg (by simpa using h), if_neg h2, hbv]
    · rw [hbv] at hb; cases hb

/-- C5 witness: a 250-day frame without a `Close` column trips the GARCH
and ML guards, and non-monotonic auxiliary indexes trip the VIX and
Sector guards, all converting to vote 0 instead of raising. -/
theorem C5_guarded_models_witness :
    (get_garch_vote exNoClose250 exGarchOk).isOk = true ∧
    get_garch_vote exNoClose250 exGarchOk = Except.ok ⟨0, "Model Failed"⟩ ∧
    get_ml_vote exNoClose250 none exMlOk = Except.ok ⟨0, "Model Failed"⟩ ∧
    get_vix_regime_vote exNoClose250 exDesc20 = Except.ok ⟨0, "Error"⟩ ∧
    get_sector_rotation_vote exNoClose250 [("XLK", exDesc11)] = Except.ok ⟨0, "Error"⟩ :=
  ⟨(C5_guarded_models exNoClose250 exGarchOk none exMlOk exDesc20 [("XLK", exDesc11)]).1,
   (C5_guarded_models exNoClose250 exGarchOk none exMlOk exDesc20
      [("XLK", exDesc11)]).2.2.2.2.1 (by decide) (by decide),
   (C5_guarded_models exNoClose250 exGarchOk none exMlOk exDesc20
      [("XLK", exDesc11)]).2.2.2.2.2.1 (by decide) (by decide),
   (C5_guarded_models exNoClose250 exGarchOk none exMlOk exDesc20
      [("XLK", exDesc11)]).2.2.2.2.2.2.1 (by decide) (by decide) (by decide),
   (C5_guarded_models exNoClose250 exGarchOk none exMlOk exDesc20
      [("XLK", exDesc11)]).2.2.2.2.2.2.2 (by decide) (by decide) (by decide)⟩

/-- The inner per-record loop of `model_stats` adds one to the running
total for every matching non-zero entry. -/
theorem modelCounters_inner (name : String) (ret : Frac) (bd : List BreakdownEntry)
    (ac : Nat × Nat) :
    (bd.foldl (fun acc2 md =>
      if md.model = name ∧ md.vote ≠ 0 then
        ((if (0 < md.vote) = (0 < ret) then acc2.1 + 1 else acc2.1), acc2.2 + 1)
      else acc2) ac).2
      = ac.2 + bd.countP (fun md => md.model = name ∧ md.vote ≠ 0) := by
  induction bd generalizing ac with
  | nil => simp
  | cons md bd ih =>
    simp only [List.foldl_cons, List.countP_cons]
    by_cases h : md.model = name ∧ md.vote ≠ 0
    · rw [if_pos h, ih]
      simp [h]
      omega
    · rw [if_neg h, ih]
      have : ¬ (decide (md.model = name ∧ md.vote ≠ 0) = true) := by simpa using h
      simp [this]

/-- The total accumulated by `modelCounters` is the sum over records of
the matching non-zero entry counts. -/
theorem modelCounters_snd (name : String) (results : List BTRecord) :
    (modelCounters name results).2 =
      (results.map
        (fun r => r.breakdown.countP (fun md => md.model = name ∧ md.vote ≠ 0))).sum := by
  have main : ∀ (rs : List BTRecord) (ac : Nat × Nat),
      (rs.foldl (fun acc r =>
        r.breakdown.foldl (fun acc2 md =>
          if md.model = name ∧ md.vote ≠ 0 then
            ((if (0 < md.vote) = (0 < r.actual_return) then acc2.1 + 1 else acc2.1),
             acc2.2 + 1)
          else acc2) acc) ac).2
        = ac.2 + (rs.map
            (fun r => r.breakdown.countP (fun md => md.model = name ∧ md.vote ≠ 0))).sum := by
    intro rs
    induction rs with
    | nil => simp
    | cons r rs ih =>
      intro ac
      simp only [List.foldl_cons, List.map_cons, List.sum_cons]
      rw [ih, modelCounters_inner]
      omega
  unfold modelCounters
  rw [main]
  simp

/-- With unique model names per breakdown, the matching non-zero entry
count of one record is 1 or 0 according to `votedNonzero`. -/
theorem countP_breakdown_nodup (name : String) (bd : List BreakdownEntry)
    (h : (bd.map (fun b => b.model)).Nodup) :
    bd.countP (fun md => md.model = name ∧ md.vote ≠ 0)
      = if bd.any (fun md => md.model = name ∧ md.vote ≠ 0) then 1 else 0 := by
  induction bd with
  | nil => simp
  | cons md bd ih =>
    simp only [List.map_cons, List.nodup_cons] at h
    obtain ⟨hnm, hnd⟩ := h
    simp only [List.countP_cons, List.any_cons]
    by_cases hp : md.model = name ∧ md.vote ≠ 0
    · have hzero : bd.countP (fun md2 => md2.model = name ∧ md2.vote ≠ 0) = 0 := by
        apply List.countP_eq_zero.mpr
        intro md2 hmem
        simp only [decide_eq_true_eq, not_and]
        intro he _
        exact absurd (List.mem_map.mpr ⟨md2, hmem, by rw [he, hp.1]⟩) hnm
      have hany : bd.any (fun md2 => md2.model = name ∧ md2.vote ≠ 0) = false := by
        apply List.any_eq_false.mpr
        intro md2 hmem
        simp only [decide_eq_true_eq, not_and]
        intro he _
        exact absurd (List.mem_map.mpr ⟨md2, hmem, by rw [he, hp.1]⟩) hnm
      rw [hzero]
      simp [hp, hany]
    · have hpd : ¬ (decide (md.model = name ∧ md.vote ≠ 0) = true) := by simpa using hp
      rw [ih hnd]
      simp [hpd]

/-- C6 support: summing the per-record matching counts gives the number
of records on which the model voted non-zero. -/
theorem sum_counts_eq_countP (name : String) (results : List BTRecord)
    (hnd : ∀ r ∈ results, (r.breakdown.map (fun b => b.model)).Nodup) :
    (results.map
      (fun r => r.breakdown.countP (fun md => md.model = name ∧ md.vote ≠ 0))).sum
      = results.countP (votedNonzero name) := by
  induction results with
  | nil => simp
  | cons r rs ih =>
    simp only [List.map_cons, List.sum_cons, List.countP_cons]
    rw [countP_breakdown_nodup name r.breakdown (hnd r (by simp)),
        ih (fun r2 h2 => hnd r2 (by simp [h2]))]
    unfold votedNonzero
    exact Nat.add_comm _ _

/-- C6 (amended): `model_stats` produces one row per hardcoded name with
a positive total ('ML Random Forest' matches no breakdown entry, so at
most five of the six named rows can appear and no other model receives a
row); for every produced row the accuracy denominator equals the number
of evaluated dates on which that model's vote was non-zero, which never
exceeds the number of dates evaluated. -/
theorem C6_model_stats (results : List BTRecord)
    (hnd : ∀ r ∈ results, (r.breakdown.map (fun b => b.model)).Nodup) :
    ∀ s ∈ model_stats results,
      s.predictions = results.countP (votedNonzero s.model) ∧
      s.predictions ≤ results.length ∧
      s.model ∈ model_names := by
  intro s hs
  unfold model_stats at hs
  rcases List.mem_filterMap.mp hs with ⟨name, hname, heq⟩
  simp only at heq
  by_cases hpos : (modelCounters name results).2 > 0
  · rw [if_pos hpos] at heq
    injection heq with heq
    subst heq
    refine ⟨?_, ?_, hname⟩
    · simp only
      rw [modelCounters_snd, sum_counts_eq_countP name results hnd]
    · simp only
      rw [modelCounters_snd, sum_counts_eq_countP name results hnd]
      exact List.countP_le_length _
  · rw [if_neg hpos] at heq
    cases heq

/-- C6 witness: a one-date backtest in which RSI voted +1. -/
theorem C6_model_stats_witness :
    (∀ r ∈ exBT, (r.breakdown.map (fun b => b.model)).Nodup) ∧
    (⟨"RSI Momentum", 100, 1, 1⟩ : ModelStat) ∈ model_stats exBT ∧
    ((1 : Nat) = exBT.countP (votedNonzero "RSI Momentum") ∧
     (1 : Nat) ≤ exBT.length ∧ "RSI Momentum" ∈ model_names) :=
  ⟨by decide, by decide,
   C6_model_stats exBT (by decide) ⟨"RSI Momentum", 100, 1, 1⟩ (by decide)⟩

/-- C6 counterexample: in a backtest date on which the Market Regime
model voted +2 (and the ML model, registered as 'ML XGBoost', voted +1),
`model_stats` produces no row at all for either model — its hardcoded
name list covers six models, one under the stale name
'ML Random Forest'. -/
theorem C6_counterexample :
    ((model_stats exBT).map (fun s => s.model)).contains "Market Regime" = false ∧
    ((model_stats exBT).map (fun s => s.model)).contains "ML XGBoost" = false ∧
    ((model_stats exBT).map (fun s => s.model)).contains "ML Random Forest" = false ∧
    exBT.countP (votedNonzero "Market Regime") = 1 ∧
    exBT.countP (votedNonzero "ML XGBoost") = 1 := by
  refine ⟨?_, ?_, ?_, ?_, ?_⟩ <;> decide

/-- Decomposition of a successful ensemble run into the ten model
results and the literal breakdown they produce. -/
theorem run_ensemble_ok_decomp (data : Frame) (vixData : Option Frame)
    (sectorData : Option (List (String × Frame)))
    (g : GarchOracle) (m : MLOracle) (r : EnsembleResult)
    (h : run_ensemble data vixData sectorData g m = Except.ok r) :
    ∃ a1 a2 a3 a4 a5 a6 a7 a8 a9 a10 : VoteResult,
      get_rsi_vote data = Except.ok a1 ∧
      get_mean_reversion_vote data = Except.ok a2 ∧
      get_garch_vote data g = Except.ok a3 ∧
      get_ml_vote data vixData m = Except.ok a4 ∧
      get_factor_vote data = Except.ok a5 ∧
      get_technical_support_vote data = Except.ok a6 ∧
      get_macd_bb_vote data = Except.ok a7 ∧
      vix_entry_call data vixData = Except.ok a8 ∧
      get_market_regime_vote data = Except.ok a9 ∧
      sector_entry_call data sectorData = Except.ok a10 ∧
      r.breakdown = [
        ⟨"RSI Momentum", a1.vote, "±1", a1.signal⟩,
        ⟨"Mean Reversion", a2.vote, "±1", a2.signal⟩,
        ⟨"GARCH Volatility", a3.vote, "±3", a3.signal⟩,
        ⟨"ML XGBoost", a4.vote, "±1", a4.signal⟩,
        ⟨"Factor Model", a5.vote, "±1", a5.signal⟩,
        ⟨"Technical Support", a6.vote, "±3", a6.signal⟩,
        ⟨"MACD + Bollinger", a7.vote, "±1", a7.signal⟩,
        ⟨"VIX Regime", a8.vote, "±3", a8.signal⟩,
        ⟨"Market Regime", a9.vote, "±2", a9.signal⟩,
        ⟨"Sector Rotation", a10.vote, "±2", a10.signal⟩] ∧
      r.net_vote = (r.breakdown.map (fun b => b.vote)).sum := by
  unfold run_ensemble at h
  cases h1 : get_rsi_vote data <;> rw [h1] at h
  case error => rw [exbind_err] at h; cases h
  rw [exbind_ok] at h
  cases h2 : get_mean_reversion_vote data <;> rw [h2] at h
  case error => rw [exbind_err] at h; cases h
  rw [exbind_ok] at h
  cases h3 : get_garch_vote data g <;> rw [h3] at h
  case error => rw [exbind_err] at h; cases h
  rw [exbind_ok] at h
  cases h4 : get_ml_vote data vixData m <;> rw [h4] at h
  case error => rw [exbind_err] at h; cases h
  rw [exbind_ok] at h
  cases h5 : get_factor_vote data <;> rw [h5] at h
  case error => rw [exbind_err] at h; cases h
  rw [exbind_ok] at h
  cases h6 : get_technical_support_vote data <;> rw [h6] at h
  case error => rw [exbind_err] at h; cases h
  rw [exbind_ok] at h
  cases h7 : get_macd_bb_vote data <;> rw [h7] at h
  case error => rw [exbind_err] at h; cases h
  rw [exbind_ok] at h
  cases h8 : vix_entry_call data vixData <;> rw [h8] at h
  case error => rw [exbind_err] at h; cases h
  rw [exbind_ok] at h
  cases h9 : get_market_regime_vote data <;> rw [h9] at h
  case error => rw [exbind_err] at h; cases h
  rw [exbind_ok] at h
  cases h10 : sector_entry_call data sectorData <;> rw [h10] at h
  case error => rw [exbind_err] at h; cases h
  rw [exbind_ok] at h
  injection h with h
  subst h
  exact ⟨_, _, _, _, _, _, _, _, _, _,
    rfl, rfl, rfl, rfl, rfl, rfl, rfl, rfl, rfl, rfl, rfl, rfl⟩

/-- `List.getD` of a replicate with the same default. -/
theorem getD_replicate_self (n i : Nat) (a : XQ) :
    (List.replicate n a).getD i a = a := by
  induction n generalizing i with
  | zero => simp [List.getD]
  | succ k ih =>
    cases i with
    | zero => simp [List.replicate]
    | succ j =>
      simp only [List.replicate, List.getD_cons_succ]
      exact ih j

/-- With no VIX frame, the VIX feature column is all NaN. -/
theorem mlvix_none (d : Frame) (n : Nat) :
    ml_vix_column d none n = Except.ok (List.replicate n XQ.nan) := rfl

/-- With an empty VIX frame, the VIX feature column is all NaN. -/
theorem mlvix_empty (d : Frame) (vE : Frame) (n : Nat) (h : vE.rows.isEmpty = true) :
    ml_vix_column d (some vE) n = Except.ok (List.replicate n XQ.nan) := by
  simp only [ml_vix_column]
  rw [if_neg (by simp [h])]

/-- When the VIX frame is absent or empty, the `VIX_Level` feature
column is all-NaN, so `dropna` removes every row of the feature frame. -/
theorem create_ml_features_no_vix_nil (d : Frame) (vixData : Option Frame)
    (hv : vixData = none ∨ ∃ vE, vixData = some vE ∧ vE.rows.isEmpty = true)
    (l : List MLRow) (h : create_ml_features d vixData = Except.ok l) : l = [] := by
  unfold create_ml_features at h
  cases hc : d.closeCol <;> rw [hc] at h
  case error => rw [exbind_err] at h; cases h
  rw [exbind_ok] at h
  simp only at h
  cases hvol : d.volumeCol <;> rw [hvol] at h
  case error => rw [exbind_err] at h; cases h
  rw [exbind_ok] at h
  cases hh : d.highCol <;> rw [hh] at h
  case error => rw [exbind_err] at h; cases h
  rw [exbind_ok] at h
  cases hl : d.lowCol <;> rw [hl] at h
  case error => rw [exbind_err] at h; cases h
  rw [exbind_ok] at h
  rcases hv with hv | ⟨vE, hv, hvE⟩ <;> subst hv
  · rw [mlvix_none, exbind_ok] at h
    have h2 := Except.ok.inj h
    rw [← h2]
    apply List.filter_eq_nil_iff.mpr
    intro x hx
    unfold ml_feature_rows at hx
    simp only [List.mem_map, List.mem_range] at hx
    obtain ⟨i, hi, rfl⟩ := hx
    simp [MLRow.hasNa, getD_replicate_self, XQ.isna]
  · rw [mlvix_empty d vE _ hvE, exbind_ok] at h
    have h2 := Except.ok.inj h
    rw [← h2]
    apply List.filter_eq_nil_iff.mpr
    intro x hx
    unfold ml_feature_rows at hx
    simp only [List.mem_map, List.mem_range] at hx
    obtain ⟨i, hi, rfl⟩ := hx
    simp [MLRow.hasNa, getD_replicate_self, XQ.isna]

/-- Without a usable VIX series the ML model can only return vote 0:
below 250 days it reports Insufficient Data; otherwise its feature frame
drops every row (all-NaN VIX column), which is below the 50-row floor,
unless feature building raised, which the guard converts to Model
Failed. -/
theorem get_ml_vote_no_vix_zero (d : Frame) (vixData : Option Frame) (m : MLOracle)
    (hv : vixData = none ∨ ∃ vE, vixData = some vE ∧ vE.rows.isEmpty = true)
    (r : VoteResult) (h : get_ml_vote d vixData m = Except.ok r) : r.vote = 0 := by
  unfold get_ml_vote at h
  by_cases hlen : d.len < 250
  · rw [if_pos hlen] at h
    injection h with h
    rw [← h]
  · rw [if_neg hlen] at h
    cases hb : ml_body d vixData m <;> rw [hb] at h
    · injection h with h
      rw [← h]
    · injection h with h
      subst h
      rename_i rb
      unfold ml_body at hb
      cases hcf : create_ml_features d vixData <;> rw [hcf] at hb
      · rw [exbind_err] at hb; cases hb
      · rw [exbind_ok] at hb
        rename_i l
        have hnil : l = [] := create_ml_features_no_vix_nil d vixData hv l hcf
        subst hnil
        rw [if_pos (by simp)] at hb
        injection hb with hb
        rw [← hb]

/-! ## Sign kit for `Frac` -/


/-- The gcd of a pair with a non-zero component is positive (as an integer). -/
theorem Frac_gcd_int_pos {p q : Int} (h : p ≠ 0 ∨ q ≠ 0) :
    0 < (Int.ofNat (Int.gcd p q)) := by
  have h1 : 0 < Int.gcd p q := Int.gcd_pos_iff.mpr h
  simp only [Int.ofNat_eq_natCast]
  exact_mod_cast h1

/-- `Frac.norm` first flips a negative denominator. -/
theorem Frac_norm_flip (p q : Int) (hq : q < 0) :
    Frac.norm ⟨p, q⟩ = Frac.norm ⟨-p, -q⟩ := by
  unfold Frac.norm
  simp only
  rw [if_pos hq, if_pos hq, if_neg (by omega : ¬ (-q) < 0), if_neg (by omega : ¬ (-q) < 0)]

/-- On a positive denominator, `Frac.norm` divides both components by the gcd. -/
theorem Frac_norm_core {p q : Int} (hq : 0 < q) :
    Frac.norm ⟨p, q⟩ =
      ⟨p / (Int.ofNat (Int.gcd p q)), q / (Int.ofNat (Int.gcd p q))⟩ := by
  unfold Frac.norm
  simp only
  rw [if_neg (by omega : ¬ q < 0), if_neg (by omega : ¬ q < 0),
    if_neg (by have := Frac_gcd_int_pos (p := p) (q := q) (Or.inr (by omega)); omega)]

/-- Dividing a positive numerator by the gcd keeps it positive. -/
theorem Int_div_gcd_pos_left {p q : Int} (hp : 0 < p) :
    0 < p / (Int.ofNat (Int.gcd p q)) := by
  have hg : 0 < Int.ofNat (Int.gcd p q) := Frac_gcd_int_pos (Or.inl (by omega))
  have hdvd : (Int.ofNat (Int.gcd p q)) ∣ p := Int.gcd_dvd_left
  have hc := Int.ediv_mul_cancel hdvd
  by_contra hle
  push_neg at hle
  nlinarith [hc]

/-- Dividing a positive denominator by the gcd keeps it positive. -/
theorem Int_div_gcd_pos_right {p q : Int} (hq : 0 < q) :
    0 < q / (Int.ofNat (Int.gcd p q)) := by
  have hg : 0 < Int.ofNat (Int.gcd p q) := Frac_gcd_int_pos (Or.inr (by omega))
  have hdvd : (Int.ofNat (Int.gcd p q)) ∣ q := Int.gcd_dvd_right
  have hc := Int.ediv_mul_cancel hdvd
  by_contra hle
  push_neg at hle
  nlinarith [hc]

/-- Dividing a non-zero numerator by the gcd keeps it non-zero. -/
theorem Int_div_gcd_ne_left {p q : Int} (hp : p ≠ 0) :
    p / (Int.ofNat (Int.gcd p q)) ≠ 0 := by
  have hdvd : (Int.ofNat (Int.gcd p q)) ∣ p := Int.gcd_dvd_left
  have hc := Int.ediv_mul_cancel hdvd
  intro h0
  rw [h0] at hc
  simp at hc
  exact hp hc.symm

/-- `Frac.norm` of a positive-over-positive pair is positive-over-positive. -/
theorem Frac_norm_isPos {p q : Int} (hp : 0 < p) (hq : 0 < q) :
    (Frac.norm ⟨p, q⟩).isPos := by
  rw [Frac_norm_core hq]
  exact ⟨Int_div_gcd_pos_left hp, Int_div_gcd_pos_right hq⟩

/-- `Frac.norm` of a nonnegative-over-positive pair stays so. -/
theorem Frac_norm_isNonneg {p q : Int} (hp : 0 ≤ p) (hq : 0 < q) :
    (Frac.norm ⟨p, q⟩).isNonneg := by
  rw [Frac_norm_core hq]
  refine ⟨Int.ediv_nonneg hp ?_, Int_div_gcd_pos_right hq⟩
  simp only [Int.ofNat_eq_natCast]
  exact_mod_cast Nat.zero_le _

/-- `Frac.norm` of a pair with non-zero denominator has positive denominator. -/
theorem Frac_norm_d_pos {p q : Int} (hq : q ≠ 0) : 0 < (Frac.norm ⟨p, q⟩).d := by
  by_cases hlt : q < 0
  · rw [Frac_norm_flip p q hlt, Frac_norm_core (by omega : (0:Int) < -q)]
    exact Int_div_gcd_pos_right (by omega)
  · rw [Frac_norm_core (by omega : (0:Int) < q)]
    exact Int_div_gcd_pos_right (by omega)

/-- `Frac.norm` preserves non-zeroness of the numerator. -/
theorem Frac_norm_n_ne {p q : Int} (hp : p ≠ 0) (hq : q ≠ 0) :
    (Frac.norm ⟨p, q⟩).n ≠ 0 := by
  by_cases hlt : q < 0
  · rw [Frac_norm_flip p q hlt, Frac_norm_core (by omega : (0:Int) < -q)]
    exact Int_div_gcd_ne_left (by omega)
  · rw [Frac_norm_core (by omega : (0:Int) < q)]
    exact Int_div_gcd_ne_left hp

/-- `Frac.norm` of a zero numerator has numerator zero. -/
theorem Frac_norm_n_zero (q : Int) : (Frac.norm ⟨0, q⟩).n = 0 := by
  by_cases hq : q = 0
  · subst hq
    rfl
  · by_cases hlt : q < 0
    · rw [Frac_norm_flip 0 q hlt, neg_zero, Frac_norm_core (by omega : (0:Int) < -q)]
      simp
    · rw [Frac_norm_core (by omega : (0:Int) < q)]
      simp

/-- A zero normalised numerator comes from a zero numerator. -/
theorem Frac_norm_n_zero_inv {p q : Int} (hq : q ≠ 0) (h : (Frac.norm ⟨p, q⟩).n = 0) :
    p = 0 := by
  by_contra hp
  exact Frac_norm_n_ne hp hq h

/-- Addition preserves nonnegative-over-positive representations. -/
theorem Frac_add_isNonneg {a b : Frac} (ha : a.isNonneg) (hb : b.isNonneg) :
    (Frac.add a b).isNonneg := by
  obtain ⟨ha1, ha2⟩ := ha
  obtain ⟨hb1, hb2⟩ := hb
  exact Frac_norm_isNonneg (by positivity) (by positivity)

/-- Adding a nonnegative value to a positive one stays positive. -/
theorem Frac_add_isPos_left {a b : Frac} (ha : a.isPos) (hb : b.isNonneg) :
    (Frac.add a b).isPos := by
  obtain ⟨ha1, ha2⟩ := ha
  obtain ⟨hb1, hb2⟩ := hb
  refine Frac_norm_isPos ?_ (by positivity)
  have h1 : 0 < a.n * b.d := by positivity
  nlinarith [mul_nonneg hb1 (le_of_lt ha2)]

/-- Adding a positive value to a nonnegative one is positive. -/
theorem Frac_add_isPos_right {a b : Frac} (ha : a.isNonneg) (hb : b.isPos) :
    (Frac.add a b).isPos := by
  obtain ⟨ha1, ha2⟩ := ha
  obtain ⟨hb1, hb2⟩ := hb
  refine Frac_norm_isPos ?_ (by positivity)
  have h1 : 0 < b.n * a.d := by positivity
  nlinarith [mul_nonneg ha1 (le_of_lt hb2)]

/-- Multiplication preserves positive representations. -/
theorem Frac_mul_isPos {a b : Frac} (ha : a.isPos) (hb : b.isPos) :
    (Frac.mul a b).isPos := by
  obtain ⟨ha1, ha2⟩ := ha
  obtain ⟨hb1, hb2⟩ := hb
  exact Frac_norm_isPos (by positivity) (by positivity)

/-- A square is nonnegative-over-positive. -/
theorem Frac_sq_isNonneg {a : Frac} (hd : a.d ≠ 0) : (Frac.mul a a).isNonneg :=
  Frac_norm_isNonneg (mul_self_nonneg a.n) (mul_self_pos.mpr hd)

/-- The square of a value with non-zero numerator is positive. -/
theorem Frac_sq_isPos {a : Frac} (hn : a.n ≠ 0) (hd : a.d ≠ 0) : (Frac.mul a a).isPos :=
  Frac_norm_isPos (mul_self_pos.mpr hn) (mul_self_pos.mpr hd)

/-- Division of positives is positive. -/
theorem Frac_qdiv_isPos {a b : Frac} (ha : a.isPos) (hb : b.isPos) :
    (Frac.qdiv a b).isPos := by
  obtain ⟨ha1, ha2⟩ := ha
  obtain ⟨hb1, hb2⟩ := hb
  unfold Frac.qdiv
  rw [if_neg (by omega : ¬ b.n = 0)]
  exact Frac_norm_isPos (by positivity) (by positivity)

/-- Addition keeps the denominator positive. -/
theorem Frac_add_d_pos {a b : Frac} (ha : 0 < a.d) (hb : 0 < b.d) :
    0 < (Frac.add a b).d :=
  Frac_norm_d_pos (by positivity)

/-- Subtraction keeps the denominator positive. -/
theorem Frac_sub_d_pos {a b : Frac} (ha : 0 < a.d) (hb : 0 < b.d) :
    0 < (Frac.sub a b).d := by
  unfold Frac.sub Frac.negF
  exact Frac_add_d_pos ha hb

/-- Multiplication keeps the denominator positive. -/
theorem Frac_mul_d_pos {a b : Frac} (ha : 0 < a.d) (hb : 0 < b.d) :
    0 < (Frac.mul a b).d :=
  Frac_norm_d_pos (by positivity)

/-- `Frac.qdiv` keeps the denominator positive. -/
theorem Frac_qdiv_d_pos {a b : Frac} (ha : 0 < a.d) : 0 < (Frac.qdiv a b).d := by
  unfold Frac.qdiv
  by_cases hb : b.n = 0
  · rw [if_pos hb]
    decide
  · rw [if_neg hb]
    exact Frac_norm_d_pos (by simp [ha.ne', hb])

/-- Subtracting a zero-valued pair from a positive one is positive. -/
theorem Frac_sub_isPos_of_zero {a b : Frac} (ha : a.isPos) (hbn : b.n = 0)
    (hbd : 0 < b.d) : (Frac.sub a b).isPos := by
  obtain ⟨ha1, ha2⟩ := ha
  unfold Frac.sub Frac.negF Frac.add
  simp only [hbn, neg_zero, zero_mul, add_zero]
  exact Frac_norm_isPos (by positivity) (by positivity)

/-- A zero difference means the two pairs denote the same rational. -/
theorem Frac_sub_n_zero_val {a b : Frac} (had : 0 < a.d) (hbd : 0 < b.d)
    (h : (Frac.sub a b).n = 0) : a.n * b.d = b.n * a.d := by
  unfold Frac.sub Frac.negF Frac.add at h
  simp only at h
  have h2 := Frac_norm_n_zero_inv (by positivity : (a.d * b.d) ≠ 0) h
  linarith

/-- A positive representation is strictly greater than zero. -/
theorem Frac_blt_zero_of_isPos {a : Frac} (ha : a.isPos) : Frac.blt 0 a = true := by
  obtain ⟨ha1, ha2⟩ := ha
  unfold Frac.blt
  simp only [decide_eq_true_eq]
  have hn : ((0 : Frac)).n = 0 := rfl
  have hd : ((0 : Frac)).d = 1 := rfl
  rw [hn, hd]
  nlinarith

/-- A positive representation is not below zero. -/
theorem Frac_not_blt_zero_of_isPos {a : Frac} (ha : a.isPos) : Frac.blt a 0 = false := by
  obtain ⟨ha1, ha2⟩ := ha
  unfold Frac.blt
  simp only [decide_eq_false_iff_not, not_lt]
  have hn : ((0 : Frac)).n = 0 := rfl
  have hd : ((0 : Frac)).d = 1 := rfl
  rw [hn, hd]
  nlinarith

/-! ## Fold lemmas -/

/-- Folding `Frac.add` keeps denominators positive. -/
theorem ffold_d_pos (xs : List Frac) (acc : Frac) (hacc : 0 < acc.d)
    (h : ∀ x ∈ xs, 0 < x.d) : 0 < (xs.foldl Frac.add acc).d := by
  induction xs generalizing acc with
  | nil => exact hacc
  | cons x xs ih =>
    simp only [List.foldl_cons]
    exact ih (Frac.add acc x) (Frac_add_d_pos hacc (h x (by simp)))
      (fun y hy => h y (by simp [hy]))

/-- Folding `Frac.add` over nonnegative values from a nonnegative start stays nonnegative. -/
theorem ffold_isNonneg (xs : List Frac) (acc : Frac) (hacc : acc.isNonneg)
    (h : ∀ x ∈ xs, x.isNonneg) : (xs.foldl Frac.add acc).isNonneg := by
  induction xs generalizing acc with
  | nil => exact hacc
  | cons x xs ih =>
    simp only [List.foldl_cons]
    exact ih (Frac.add acc x) (Frac_add_isNonneg hacc (h x (by simp)))
      (fun y hy => h y (by simp [hy]))

/-- Folding `Frac.add` over nonnegative values from a positive start stays positive. -/
theorem ffold_isPos_acc (xs : List Frac) (acc : Frac) (hacc : acc.isPos)
    (h : ∀ x ∈ xs, x.isNonneg) : (xs.foldl Frac.add acc).isPos := by
  induction xs generalizing acc with
  | nil => exact hacc
  | cons x xs ih =>
    simp only [List.foldl_cons]
    exact ih (Frac.add acc x) (Frac_add_isPos_left hacc (h x (by simp)))
      (fun y hy => h y (by simp [hy]))

/-- Folding `Frac.add` over nonnegative values containing a positive one is positive. -/
theorem ffold_isPos_mem (xs : List Frac) (acc : Frac) (hacc : acc.isNonneg)
    (h : ∀ x ∈ xs, x.isNonneg) (hex : ∃ x ∈ xs, x.isPos) :
    (xs.foldl Frac.add acc).isPos := by
  induction xs generalizing acc with
  | nil => simp at hex
  | cons x xs ih =>
    simp only [List.foldl_cons]
    obtain ⟨y, hy, hyp⟩ := hex
    rcases List.mem_cons.mp hy with hyx | hyt
    · subst hyx
      exact ffold_isPos_acc xs (Frac.add acc y) (Frac_add_isPos_right hacc hyp)
        (fun z hz => h z (by simp [hz]))
    · exact ih (Frac.add acc x) (Frac_add_isNonneg hacc (h x (by simp)))
        (fun z hz => h z (by simp [hz])) ⟨y, hyt, hyp⟩

/-! ## XQ constructor computation lemmas -/

/-- IEEE addition on finite values is exact addition. -/
theorem XQ_add_fin (a b : Frac) : (XQ.fin a).add (XQ.fin b) = XQ.fin (Frac.add a b) := rfl

/-- IEEE subtraction on finite values is exact subtraction. -/
theorem XQ_sub_fin (a b : Frac) : (XQ.fin a).sub (XQ.fin b) = XQ.fin (Frac.sub a b) := rfl

/-- IEEE multiplication on finite values is exact multiplication. -/
theorem XQ_mul_fin (a b : Frac) : (XQ.fin a).mul (XQ.fin b) = XQ.fin (Frac.mul a b) := rfl

/-- An `XQ.add` fold over finite nonnegative values is finite and nonnegative. -/
theorem xfold_fin_isNonneg (xs : List XQ) (acc : Frac) (hacc : acc.isNonneg)
    (h : ∀ x ∈ xs, ∃ q : Frac, x = XQ.fin q ∧ q.isNonneg) :
    ∃ s : Frac, xs.foldl XQ.add (XQ.fin acc) = XQ.fin s ∧ s.isNonneg := by
  induction xs generalizing acc with
  | nil => exact ⟨acc, rfl, hacc⟩
  | cons x xs ih =>
    obtain ⟨q, hq, hqn⟩ := h x (by simp)
    subst hq
    simp only [List.foldl_cons, XQ_add_fin]
    exact ih (Frac.add acc q) (Frac_add_isNonneg hacc hqn)
      (fun y hy => h y (by simp [hy]))

/-- An `XQ.add` fold from a positive start over finite nonnegative values is finite and positive. -/
theorem xfold_fin_isPos_acc (xs : List XQ) (acc : Frac) (hacc : acc.isPos)
    (h : ∀ x ∈ xs, ∃ q : Frac, x = XQ.fin q ∧ q.isNonneg) :
    ∃ s : Frac, xs.foldl XQ.add (XQ.fin acc) = XQ.fin s ∧ s.isPos := by
  induction xs generalizing acc with
  | nil => exact ⟨acc, rfl, hacc⟩
  | cons x xs ih =>
    obtain ⟨q, hq, hqn⟩ := h x (by simp)
    subst hq
    simp only [List.foldl_cons, XQ_add_fin]
    exact ih (Frac.add acc q) (Frac_add_isPos_left hacc hqn)
      (fun y hy => h y (by simp [hy]))

/-- An `XQ.add` fold over finite nonnegative values with a positive member is finite and positive. -/
theorem xfold_fin_isPos_mem (xs : List XQ) (acc : Frac) (hacc : acc.isNonneg)
    (h : ∀ x ∈ xs, ∃ q : Frac, x = XQ.fin q ∧ q.isNonneg)
    (hex : ∃ x ∈ xs, ∃ q : Frac, x = XQ.fin q ∧ q.isPos) :
    ∃ s : Frac, xs.foldl XQ.add (XQ.fin acc) = XQ.fin s ∧ s.isPos := by
  induction xs generalizing acc with
  | nil => simp at hex
  | cons x xs ih =>
    obtain ⟨q, hq, hqn⟩ := h x (by simp)
    obtain ⟨y, hy, qy, hqy, hqyp⟩ := hex
    subst hq
    simp only [List.foldl_cons, XQ_add_fin]
    rcases List.mem_cons.mp hy with hyx | hyt
    · have : qy = q := by rw [hyx] at hqy; exact (XQ.fin.inj hqy.symm)
      subst this
      exact xfold_fin_isPos_acc xs (Frac.add acc qy) (Frac_add_isPos_right hacc hqyp)
        (fun z hz => h z (by simp [hz]))
    · exact ih (Frac.add acc q) (Frac_add_isNonneg hacc hqn)
        (fun z hz => h z (by simp [hz])) ⟨y, hyt, qy, hqy, hqyp⟩

/-! ## Indexing lemmas -/

/-- `List.getD` over a mapped range evaluates the function in bounds. -/
theorem getD_range_map {α : Type} (f : Nat → α) (n i : Nat) (d : α) :
    ((List.range n).map f).getD i d = if i < n then f i else d := by
  by_cases hi : i < n
  · rw [if_pos hi]
    rw [List.getD_eq_getElem _ _ (by simpa using hi)]
    simp
  · rw [if_neg hi]
    exact List.getD_eq_default _ _ (by simpa using Nat.le_of_not_lt hi)

/-- `List.getD` over a `XQ.fin`-mapped list in bounds. -/
theorem getD_map_fin (l : List Frac) (i : Nat) (hi : i < l.length) :
    (l.map XQ.fin).getD i XQ.nan = XQ.fin (l.getD i 0) := by
  rw [List.getD_eq_getElem _ _ (by simpa using hi), List.getD_eq_getElem _ _ hi]
  simp

/-- `List.getD` of a `zipWith` in bounds. -/
theorem getD_zipWith {α β γ : Type} (f : α → β → γ) (as : List α) (bs : List β)
    (i : Nat) (d : γ) (da : α) (db : β) (h1 : i < as.length) (h2 : i < bs.length) :
    (List.zipWith f as bs).getD i d = f (as.getD i da) (bs.getD i db) := by
  rw [List.getD_eq_getElem _ _ (by simp [List.length_zipWith]; omega),
    List.getD_eq_getElem _ _ h1, List.getD_eq_getElem _ _ h2]
  simp

/-- `List.getD` of a `zipWith3` in bounds. -/
theorem getD_zipWith3 {α β γ δ : Type} (f : α → β → γ → δ) (as : List α)
    (bs : List β) (cs : List γ) (i : Nat) (d : δ) (da : α) (db : β) (dc : γ)
    (h1 : i < as.length) (h2 : i < bs.length) (h3 : i < cs.length) :
    (List.zipWith3 f as bs cs).getD i d =
      f (as.getD i da) (bs.getD i db) (cs.getD i dc) := by
  induction as generalizing bs cs i with
  | nil => simp at h1
  | cons a as ih =>
    cases bs with
    | nil => simp at h2
    | cons b bs =>
      cases cs with
      | nil => simp at h3
      | cons c cs =>
        cases i with
        | zero => rfl
        | succ j =>
          simp only [List.zipWith3, List.getD_cons_succ]
          exact ih bs cs j (by simpa using h1) (by simpa using h2) (by simpa using h3)

/-- A full trailing window has exactly the requested width. -/
theorem windowEnd_length (w : Nat) (xs : List XQ) (i : Nat) (hi : i < xs.length)
    (hw : w ≤ i + 1) : (windowEnd w xs i).length = w := by
  simp only [windowEnd, List.length_drop, List.length_take]
  omega

/-- Every member of a trailing window is an indexed element of the series. -/
theorem windowEnd_mem (w : Nat) (xs : List XQ) (i : Nat) (hi : i < xs.length)
    (hw : w ≤ i + 1) {x : XQ} (hx : x ∈ windowEnd w xs i) :
    ∃ j, i + 1 - w ≤ j ∧ j ≤ i ∧ x = xs.getD j XQ.nan := by
  obtain ⟨p, hp, he⟩ := List.mem_iff_getElem.mp hx
  have hplen : p < w := by
    have := windowEnd_length w xs i hi hw
    omega
  refine ⟨i + 1 - w + p, by omega, by omega, ?_⟩
  rw [← he]
  simp only [windowEnd]
  rw [List.getElem_drop, List.getElem_take]
  rw [List.getD_eq_getElem _ _ (by omega)]

/-- The element `k` places before the window end lies in the window. -/
theorem windowEnd_mem_back (w : Nat) (xs : List XQ) (i k : Nat) (hi : i < xs.length)
    (hw : w ≤ i + 1) (hk : k < w) : xs.getD (i - k) XQ.nan ∈ windowEnd w xs i := by
  have hlen : (windowEnd w xs i).length = w := windowEnd_length w xs i hi hw
  have hidx : w - 1 - k < (windowEnd w xs i).length := by omega
  have he : (windowEnd w xs i).get ⟨w - 1 - k, hidx⟩ = xs.getD (i - k) XQ.nan := by
    rw [List.get_eq_getElem]
    simp only [windowEnd]
    rw [List.getElem_drop, List.getElem_take]
    rw [List.getD_eq_getElem _ _ (by omega)]
    congr 1
    omega
  rw [← he]
  exact List.get_mem _ _ hidx

/-- `Series.diff()` at a positive index is the successive difference. -/
theorem getD_diffQ (xs : List Frac) (j : Nat) (hj1 : 1 ≤ j) (hj : j < xs.length) :
    (diffQ xs).getD j XQ.nan = XQ.fin (xs.getD j 0 - xs.getD (j - 1) 0) := by
  obtain ⟨k, rfl⟩ : ∃ k, j = k + 1 := ⟨j - 1, by omega⟩
  cases xs with
  | nil => simp at hj
  | cons x l =>
    show ((XQ.nan :: List.zipWith (fun a b => XQ.fin (b - a)) (x :: l) (x :: l).tail).getD
      (k + 1) XQ.nan) = _
    rw [List.getD_cons_succ]
    rw [getD_zipWith _ _ _ k _ 0 0 (by simp at hj ⊢; omega) (by simp at hj ⊢; omega)]
    simp only [List.tail_cons, Nat.add_sub_cancel, List.getD_cons_succ]

/-- `pct_change` of an extended series at a positive index. -/
theorem getD_pctChangeX (xs : List XQ) (j : Nat) (hj1 : 1 ≤ j) (hj : j < xs.length) :
    (pctChangeX xs).getD j XQ.nan =
      ((xs.getD j XQ.nan).sub (xs.getD (j - 1) XQ.nan)).div (xs.getD (j - 1) XQ.nan) := by
  obtain ⟨k, rfl⟩ : ∃ k, j = k + 1 := ⟨j - 1, by omega⟩
  cases xs with
  | nil => simp at hj
  | cons x l =>
    show ((XQ.nan :: List.zipWith (fun a b => (b.sub a).div a) (x :: l) (x :: l).tail).getD
      (k + 1) XQ.nan) = _
    rw [List.getD_cons_succ]
    rw [getD_zipWith _ _ _ k _ XQ.nan XQ.nan (by simp at hj ⊢; omega) (by simp at hj ⊢; omega)]
    simp only [List.tail_cons, Nat.add_sub_cancel, List.getD_cons_succ]

/-! ## Length lemmas -/

/-- `Series.diff()` preserves the length. -/
theorem diffQ_length (xs : List Frac) : (diffQ xs).length = xs.length := by
  cases xs with
  | nil => rfl
  | cons x l => simp [diffQ]

/-- `pct_change(n)` preserves the length. -/
theorem pctChangeN_length (n : Nat) (xs : List Frac) :
    (pctChangeN n xs).length = xs.length := by
  simp [pctChangeN]

/-- Rolling means preserve the length. -/
theorem rollingMeanX_length (w : Nat) (xs : List XQ) :
    (rollingMeanX w xs).length = xs.length := by
  simp [rollingMeanX]

/-- Rolling means of finite series preserve the length. -/
theorem rollingMeanQ_length (w : Nat) (xs : List Frac) :
    (rollingMeanQ w xs).length = xs.length := by
  simp [rollingMeanQ, rollingMeanX_length]

/-- Rolling variances preserve the length. -/
theorem rollingVarX_length (w : Nat) (xs : List XQ) :
    (rollingVarX w xs).length = xs.length := by
  simp [rollingVarX]

/-- The EWM recursion preserves the length. -/
theorem ewmGo_length (a prev : Frac) (xs : List Frac) :
    (ewmGo a prev xs).length = xs.length := by
  induction xs generalizing prev with
  | nil => rfl
  | cons x l ih => simp [ewmGo, ih]

/-- `ewm(...).mean()` preserves the length. -/
theorem ewmMean_length (s : Nat) (xs : List Frac) :
    (ewmMean s xs).length = xs.length := by
  cases xs with
  | nil => rfl
  | cons x l => simp [ewmMean, ewmGo_length]

/-- The RSI column has the length of the close column. -/
theorem calculate_rsi_length (closes : List Frac) (period : Nat) :
    (calculate_rsi closes period).length = closes.length := by
  simp [calculate_rsi, rollingMeanQ_length, diffQ_length]

/-- The MACD histogram has the length of the close column. -/
theorem macd_hist_length (closes : List Frac) :
    (calculate_macd closes).2.2.length = closes.length := by
  simp [calculate_macd, ewmMean_length]

/-! ## Non-NaN lemmas for divisions -/

/-- A float division by a non-zero value is not NaN. -/
theorem fdiv_not_nan {a b : Frac} (hb : b.n ≠ 0) : (fdiv a b).isna = false := by
  unfold fdiv
  rw [if_neg hb]
  rfl

/-- A float division by a non-zero value is finite. -/
theorem fdiv_isFin {a b : Frac} (hb : b.n ≠ 0) : (fdiv a b).isFin = true := by
  unfold fdiv
  rw [if_neg hb]
  rfl

/-- An IEEE division of finite values by a non-zero divisor is not NaN. -/
theorem xdiv_fin_not_nan_dr {a b : Frac} (hb : b.n ≠ 0) :
    ((XQ.fin a).div (XQ.fin b)).isna = false := by
  show (if b.n = 0 then _ else XQ.fin (a / b)).isna = false
  rw [if_neg hb]
  rfl

/-- An IEEE division of a positive finite value is never NaN. -/
theorem xdiv_fin_not_nan_pos {a : Frac} (b : Frac) (ha : a.isPos) :
    ((XQ.fin a).div (XQ.fin b)).isna = false := by
  show (if b.n = 0 then (if a > 0 then XQ.pinf else if a < 0 then XQ.ninf else XQ.nan)
    else XQ.fin (a / b)).isna = false
  by_cases hb : b.n = 0
  · rw [if_pos hb, if_pos (show a > 0 from Frac_blt_zero_of_isPos ha)]
    rfl
  · rw [if_neg hb]
    rfl

/-- An IEEE subtraction of finite values is not NaN. -/
theorem xsub_fin_not_nan (a b : Frac) : ((XQ.fin a).sub (XQ.fin b)).isna = false := rfl

/-- IEEE division of finite values with non-zero divisor is exact division. -/
theorem xdiv_fin_eq {a b : Frac} (hb : b.n ≠ 0) :
    (XQ.fin a).div (XQ.fin b) = XQ.fin (Frac.qdiv a b) := by
  show (if b.n = 0 then _ else XQ.fin (a / b)) = _
  rw [if_neg hb]
  rfl

/-- Division of a nonnegative value by a positive one is nonnegative. -/
theorem Frac_qdiv_isNonneg {a b : Frac} (ha : a.isNonneg) (hb : b.isPos) :
    (Frac.qdiv a b).isNonneg := by
  obtain ⟨ha1, ha2⟩ := ha
  obtain ⟨hb1, hb2⟩ := hb
  unfold Frac.qdiv
  rw [if_neg (by omega : ¬ b.n = 0)]
  exact Frac_norm_isNonneg (by positivity) (by positivity)

/-- A positive natural literal is a positive representation. -/
theorem natCast_Frac_isPos {w : Nat} (hw : 0 < w) : ((w : Frac)).isPos := by
  constructor
  · show (0 : Int) < Int.ofNat w
    simp only [Int.ofNat_eq_natCast]
    exact_mod_cast hw
  · show (0 : Int) < 1
    decide

/-- Zero is a nonnegative representation. -/
theorem zero_Frac_isNonneg : ((0 : Frac)).isNonneg := ⟨by decide, by decide⟩

/-- A window over a `fin`-mapped nonnegative series consists of finite nonnegative values. -/
theorem windowEnd_fin_nonneg (xs : List Frac) (w i : Nat) (hi : i < xs.length)
    (hwi : w ≤ i + 1)
    (hnn : ∀ j, i + 1 - w ≤ j → j ≤ i → (xs.getD j 0).isNonneg) :
    ∀ x ∈ windowEnd w (xs.map XQ.fin) i, ∃ q : Frac, x = XQ.fin q ∧ q.isNonneg := by
  intro x hx
  obtain ⟨j, hj1, hj2, hj3⟩ :=
    windowEnd_mem w (xs.map XQ.fin) i (by simpa using hi) hwi hx
  rw [getD_map_fin _ j (by omega)] at hj3
  exact ⟨_, hj3, hnn j hj1 hj2⟩

/-- A full-window rolling mean of nonnegative values is finite and nonnegative. -/
theorem rollingMeanQ_getD_isNonneg (xs : List Frac) (w i : Nat) (hw : 0 < w)
    (hi : i < xs.length) (hwi : w ≤ i + 1)
    (hnn : ∀ j, i + 1 - w ≤ j → j ≤ i → (xs.getD j 0).isNonneg) :
    ∃ s : Frac, (rollingMeanQ w xs).getD i XQ.nan = XQ.fin s ∧ s.isNonneg := by
  simp only [rollingMeanQ, rollingMeanX, List.length_map]
  rw [getD_range_map, if_pos hi, if_neg (by omega : ¬ i + 1 < w)]
  obtain ⟨s, hs, hsn⟩ := xfold_fin_isNonneg (windowEnd w (xs.map XQ.fin) i) 0
    zero_Frac_isNonneg (windowEnd_fin_nonneg xs w i hi hwi hnn)
  rw [hs, xdiv_fin_eq (show ((w : Frac)).n ≠ 0 from (natCast_Frac_isPos hw).1.ne')]
  exact ⟨_, rfl, Frac_qdiv_isNonneg hsn (natCast_Frac_isPos hw)⟩

/-- A full-window rolling mean of nonnegative values with positive last entry is finite and positive. -/
theorem rollingMeanQ_getD_isPos (xs : List Frac) (w i : Nat) (hw : 0 < w)
    (hi : i < xs.length) (hwi : w ≤ i + 1)
    (hnn : ∀ j, i + 1 - w ≤ j → j ≤ i → (xs.getD j 0).isNonneg)
    (hpos : (xs.getD i 0).isPos) :
    ∃ s : Frac, (rollingMeanQ w xs).getD i XQ.nan = XQ.fin s ∧ s.isPos := by
  simp only [rollingMeanQ, rollingMeanX, List.length_map]
  rw [getD_range_map, if_pos hi, if_neg (by omega : ¬ i + 1 < w)]
  have hmem : (xs.map XQ.fin).getD i XQ.nan ∈ windowEnd w (xs.map XQ.fin) i := by
    have := windowEnd_mem_back w (xs.map XQ.fin) i 0 (by simpa using hi) hwi hw
    simpa using this
  obtain ⟨s, hs, hsn⟩ := xfold_fin_isPos_mem (windowEnd w (xs.map XQ.fin) i) 0
    zero_Frac_isNonneg (windowEnd_fin_nonneg xs w i hi hwi hnn)
    ⟨_, hmem, xs.getD i 0, getD_map_fin xs i hi, hpos⟩
  rw [hs, xdiv_fin_eq (show ((w : Frac)).n ≠ 0 from (natCast_Frac_isPos hw).1.ne')]
  exact ⟨_, rfl, Frac_qdiv_isPos hsn (natCast_Frac_isPos hw)⟩

/-! ## Rolling variance lemmas -/

/-- A rolling variance over a fully finite window is not NaN. -/
theorem rollingVarX_getD_not_nan (ys : List XQ) (w i : Nat)
    (hi : i < ys.length) (hwi : w ≤ i + 1)
    (hfin : ∀ j, i + 1 - w ≤ j → j ≤ i → (ys.getD j XQ.nan).isFin = true) :
    ((rollingVarX w ys).getD i XQ.nan).isna = false := by
  simp only [rollingVarX]
  rw [getD_range_map, if_pos hi, if_neg (by omega : ¬ i + 1 < w)]
  have hall : (windowEnd w ys i).all XQ.isFin = true := by
    refine List.all_eq_true.mpr ?_
    intro x hx
    obtain ⟨j, hj1, hj2, hj3⟩ := windowEnd_mem w ys i hi hwi hx
    rw [hj3]
    exact hfin j hj1 hj2
  simp only [hall, if_true]
  rfl

/-- The `ddof` divisor `w - 1` is positive for windows of width at least 2. -/
theorem Frac_w_sub_one_isPos {w : Nat} (hw : 2 ≤ w) : ((w : Frac) - 1).isPos := by
  have he : ((w : Frac) - 1) =
      Frac.norm ⟨Int.ofNat w * 1 + -(Int.ofNat 1) * 1, 1 * 1⟩ := rfl
  rw [he]
  refine Frac_norm_isPos ?_ (by decide)
  have hc : (2 : Int) ≤ Int.ofNat w := by
    simp only [Int.ofNat_eq_natCast]
    exact_mod_cast hw
  have h1 : Int.ofNat 1 = 1 := rfl
  rw [h1]
  omega

/-- A rolling sample variance over a window containing two distinct values is finite and positive. -/
theorem rollingVarX_getD_isPos (xs : List Frac) (w i : Nat) (hw : 2 ≤ w)
    (hi : i < xs.length) (hwi : w ≤ i + 1)
    (hd : ∀ j, i + 1 - w ≤ j → j ≤ i → 0 < (xs.getD j 0).d)
    (hval : (xs.getD i 0).n * (xs.getD (i - 1) 0).d ≠
      (xs.getD (i - 1) 0).n * (xs.getD i 0).d) :
    ∃ v : Frac, (rollingVarX w (xs.map XQ.fin)).getD i XQ.nan = XQ.fin v ∧ v.isPos := by
  simp only [rollingVarX, List.length_map]
  rw [getD_range_map, if_pos hi, if_neg (by omega : ¬ i + 1 < w)]
  have hlen : i < (xs.map XQ.fin).length := by simpa using hi
  have hall : (windowEnd w (xs.map XQ.fin) i).all XQ.isFin = true := by
    refine List.all_eq_true.mpr ?_
    intro x hx
    obtain ⟨j, hj1, hj2, hj3⟩ := windowEnd_mem w (xs.map XQ.fin) i hlen hwi hx
    rw [hj3, getD_map_fin _ j (by omega)]
    rfl
  simp only [hall, if_true]
  refine ⟨_, rfl, ?_⟩
  set fwin := (windowEnd w (xs.map XQ.fin) i).map
    (fun x => match x with | XQ.fin q => q | _ => 0) with hfwin
  have hmem : ∀ y ∈ fwin, ∃ j, i + 1 - w ≤ j ∧ j ≤ i ∧ y = xs.getD j 0 := by
    intro y hy
    rw [hfwin] at hy
    obtain ⟨x, hx, hxy⟩ := List.mem_map.mp hy
    obtain ⟨j, hj1, hj2, hj3⟩ := windowEnd_mem w (xs.map XQ.fin) i hlen hwi hx
    rw [getD_map_fin _ j (by omega)] at hj3
    subst hj3
    exact ⟨j, hj1, hj2, hxy.symm⟩
  have hdall : ∀ y ∈ fwin, 0 < y.d := by
    intro y hy
    obtain ⟨j, hj1, hj2, rfl⟩ := hmem y hy
    exact hd j hj1 hj2
  refine Frac_qdiv_isPos ?_ (Frac_w_sub_one_isPos hw)
  show (sqDevSum fwin).isPos
  unfold sqDevSum
  simp only
  set m := Frac.sumL fwin / ((fwin.length : Nat) : Frac) with hm
  have hmd : 0 < m.d := by
    rw [hm]
    refine Frac_qdiv_d_pos ?_
    exact ffold_d_pos fwin ⟨0, 1⟩ (by decide) hdall
  have hx1 : xs.getD i 0 ∈ fwin := by
    rw [hfwin]
    have h1 := windowEnd_mem_back w (xs.map XQ.fin) i 0 hlen hwi (by omega)
    rw [Nat.sub_zero, getD_map_fin _ i hi] at h1
    exact List.mem_map.mpr ⟨XQ.fin (xs.getD i 0), h1, rfl⟩
  have hx2 : xs.getD (i - 1) 0 ∈ fwin := by
    rw [hfwin]
    have h1 := windowEnd_mem_back w (xs.map XQ.fin) i 1 hlen hwi (by omega)
    rw [getD_map_fin _ (i - 1) (by omega)] at h1
    exact List.mem_map.mpr ⟨XQ.fin (xs.getD (i - 1) 0), h1, rfl⟩
  have hkey : (Frac.sub (xs.getD i 0) m).n ≠ 0 ∨ (Frac.sub (xs.getD (i - 1) 0) m).n ≠ 0 := by
    by_contra hcon
    push_neg at hcon
    obtain ⟨h1, h2⟩ := hcon
    have e1 := Frac_sub_n_zero_val (hd i (by omega) (by omega)) hmd h1
    have e2 := Frac_sub_n_zero_val (hd (i - 1) (by omega) (by omega)) hmd h2
    have e3 : ((xs.getD i 0).n * (xs.getD (i - 1) 0).d) * m.d =
        ((xs.getD (i - 1) 0).n * (xs.getD i 0).d) * m.d := by
      linear_combination ((xs.getD (i - 1) 0).d) * e1 - ((xs.getD i 0).d) * e2
    exact hval (mul_right_cancel₀ (by omega) e3)
  refine ffold_isPos_mem _ _ zero_Frac_isNonneg ?_ ?_
  · intro z hz
    obtain ⟨y, hy, hyz⟩ := List.mem_map.mp hz
    rw [← hyz]
    exact Frac_sq_isNonneg (show (y - m).d ≠ 0 from
      (Frac_sub_d_pos (hdall y hy) hmd).ne')
  · rcases hkey with hk | hk
    · refine ⟨_, List.mem_map.mpr ⟨xs.getD i 0, hx1, rfl⟩, ?_⟩
      exact Frac_sq_isPos hk (Frac_sub_d_pos (hdall _ hx1) hmd).ne'
    · refine ⟨_, List.mem_map.mpr ⟨xs.getD (i - 1) 0, hx2, rfl⟩, ?_⟩
      exact Frac_sq_isPos hk (Frac_sub_d_pos (hdall _ hx2) hmd).ne'

/-! ## RSI entry lemma -/

/-- The RSI formula is never NaN when the mean gain is positive. -/
theorem rsi_entry_not_nan (g l : Frac) (hg : g.isPos) :
    ((XQ.fin 100).sub
      ((XQ.fin 100).div ((XQ.fin 1).add ((XQ.fin g).div (XQ.fin l))))).isna = false := by
  by_cases hl : l.n = 0
  · have h1 : (XQ.fin g).div (XQ.fin l) = XQ.pinf := by
      show (if l.n = 0 then (if g > 0 then XQ.pinf else if g < 0 then XQ.ninf else XQ.nan)
        else XQ.fin (g / l)) = _
      rw [if_pos hl, if_pos (show g > 0 from Frac_blt_zero_of_isPos hg)]
    rw [h1]
    rfl
  · rw [xdiv_fin_eq hl, XQ_add_fin]
    by_cases hu : (Frac.add 1 (Frac.qdiv g l)).n = 0
    · have h2 : (XQ.fin 100).div (XQ.fin (Frac.add 1 (Frac.qdiv g l))) = XQ.pinf := by
        show (if (Frac.add 1 (Frac.qdiv g l)).n = 0
          then (if (100 : Frac) > 0 then XQ.pinf else if (100 : Frac) < 0 then XQ.ninf
            else XQ.nan)
          else XQ.fin (100 / Frac.add 1 (Frac.qdiv g l))) = _
        rw [if_pos hu, if_pos (show (100 : Frac) > 0 from by decide)]
      rw [h2]
      rfl
    · rw [xdiv_fin_eq hu, XQ_sub_fin]
      rfl

/-! ## Concrete column facts for `exInc250` -/

/-- `List.getD` of a mapped list in bounds. -/
theorem getD_map_in {α β : Type} (f : α → β) (l : List α) (j : Nat)
    (hj : j < l.length) (d : β) (dl : α) : (l.map f).getD j d = f (l.getD j dl) := by
  rw [List.getD_eq_getElem _ _ (by simpa using hj), List.getD_eq_getElem _ _ hj]
  simp

/-- The rising close column has 250 entries. -/
theorem exIncCloses_length : exIncCloses.length = 250 := by
  simp [exIncCloses]

/-- Indexing the rising close column. -/
theorem exIncCloses_getD {j : Nat} (hj : j < 250) :
    exIncCloses.getD j 0 = exIncClose j := by
  rw [exIncCloses, getD_range_map, if_pos hj]

/-- Every rising close is positive. -/
theorem exIncClose_isPos (j : Nat) : (exIncClose j).isPos := by
  constructor
  · show (0 : Int) < 100 + (j : Int)
    omega
  · show (0 : Int) < 1
    decide

/-- Every daily delta of the rising closes is positive. -/
theorem exInc_delta_isPos {j : Nat} (hj1 : 1 ≤ j) (hj : j < 250) :
    (Frac.sub (exIncCloses.getD j 0) (exIncCloses.getD (j - 1) 0)).isPos := by
  rw [exIncCloses_getD hj, exIncCloses_getD (by omega : j - 1 < 250)]
  show (Frac.add (exIncClose j) (Frac.negF (exIncClose (j - 1)))).isPos
  unfold exIncClose Frac.add Frac.negF
  simp only
  refine Frac_norm_isPos ?_ (by decide)
  have hc : ((j - 1 : Nat) : Int) = (j : Int) - 1 := by
    push_cast [hj1]
    ring
  rw [hc]
  ring_nf
  omega

/-- Positive representations are nonnegative. -/
theorem Frac_isPos_isNonneg {a : Frac} (h : a.isPos) : a.isNonneg := ⟨le_of_lt h.1, h.2⟩

/-- On the rising closes, the RSI gain series holds the raw deltas. -/
theorem exInc_gain_getD {j : Nat} (hj1 : 1 ≤ j) (hj : j < 250) :
    ((diffQ exIncCloses).map
      (fun d => match d with | XQ.fin q => if q > 0 then q else 0 | _ => 0)).getD j 0 =
      exIncCloses.getD j 0 - exIncCloses.getD (j - 1) 0 := by
  rw [getD_map_in _ _ j (by simp [diffQ_length, exIncCloses_length]; omega) 0 XQ.nan]
  rw [getD_diffQ exIncCloses j hj1 (by rw [exIncCloses_length]; omega)]
  show (if (exIncCloses.getD j 0 - exIncCloses.getD (j - 1) 0) > 0 then _ else _) = _
  rw [if_pos (show (exIncCloses.getD j 0 - exIncCloses.getD (j - 1) 0) > 0 from
    Frac_blt_zero_of_isPos (exInc_delta_isPos hj1 hj))]

/-- On the rising closes, the RSI loss series is zero. -/
theorem exInc_loss_getD {j : Nat} (hj1 : 1 ≤ j) (hj : j < 250) :
    ((diffQ exIncCloses).map
      (fun d => match d with | XQ.fin q => if q < 0 then -q else 0 | _ => 0)).getD j 0 = 0 := by
  rw [getD_map_in _ _ j (by simp [diffQ_length, exIncCloses_length]; omega) 0 XQ.nan]
  rw [getD_diffQ exIncCloses j hj1 (by rw [exIncCloses_length]; omega)]
  show (if (exIncCloses.getD j 0 - exIncCloses.getD (j - 1) 0) < 0 then _ else _) = _
  rw [if_neg]
  intro hcon
  have h3 : Frac.blt (Frac.sub (exIncCloses.getD j 0) (exIncCloses.getD (j - 1) 0)) 0 = true :=
    hcon
  rw [Frac_not_blt_zero_of_isPos (exInc_delta_isPos hj1 hj)] at h3
  cases h3

/-- On the rising closes, the RSI column is never NaN once the window is full. -/
theorem exInc_rsi_not_nan {i : Nat} (hi1 : 14 ≤ i) (hi : i < 250) :
    ((calculate_rsi exIncCloses 14).getD i XQ.nan).isna = false := by
  unfold calculate_rsi
  rw [getD_zipWith _ _ _ i XQ.nan XQ.nan XQ.nan
    (by simp [rollingMeanQ_length, diffQ_length, exIncCloses_length]; omega)
    (by simp [rollingMeanQ_length, diffQ_length, exIncCloses_length]; omega)]
  obtain ⟨g, hgEq, hgPos⟩ := rollingMeanQ_getD_isPos
    ((diffQ exIncCloses).map
      (fun d => match d with | XQ.fin q => if q > 0 then q else 0 | _ => 0))
    14 i (by omega) (by simp [diffQ_length, exIncCloses_length]; omega) (by omega)
    (fun j hj1 hj2 => by
      rw [exInc_gain_getD (by omega) (by omega)]
      exact Frac_isPos_isNonneg (exInc_delta_isPos (by omega) (by omega)))
    (by
      rw [exInc_gain_getD (by omega) (by omega)]
      exact exInc_delta_isPos (by omega) (by omega))
  obtain ⟨l, hlEq, hlNn⟩ := rollingMeanQ_getD_isNonneg
    ((diffQ exIncCloses).map
      (fun d => match d with | XQ.fin q => if q < 0 then -q else 0 | _ => 0))
    14 i (by omega) (by simp [diffQ_length, exIncCloses_length]; omega) (by omega)
    (fun j hj1 hj2 => by
      rw [exInc_loss_getD (by omega) (by omega)]
      exact zero_Frac_isNonneg)
  rw [hgEq, hlEq]
  exact rsi_entry_not_nan g l hgPos

/-- The MACD histogram of the rising closes is finite. -/
theorem exInc_macd_not_nan {i : Nat} (hi : i < 250) :
    (((calculate_macd exIncCloses).2.2.map XQ.fin).getD i XQ.nan).isna = false := by
  have hlen : (calculate_macd exIncCloses).2.2.length = 250 := by
    rw [macd_hist_length, exIncCloses_length]
  rw [getD_map_in XQ.fin _ i (by rw [hlen]; exact hi) XQ.nan 0]
  rfl

/-! ## The aligned VIX column of the rising example -/

/-- The aligned VIX column has 250 entries. -/
theorem exIncVix_length : exIncVix.length = 250 := by
  simp [exIncVix, exInc250, exIncRows]

/-- Every aligned VIX observation of the example equals 100. -/
theorem exIncVix_getD {i : Nat} (hi : i < 250) : exIncVix.getD i XQ.nan = XQ.fin 100 := by
  unfold exIncVix
  rw [getD_map_in optX _ i (by simp [exInc250, exIncRows]; omega) XQ.nan none]
  rw [getD_map_in _ exInc250.rows i (by simp [exInc250, exIncRows]; omega) none
    (⟨0, 0, 0, 0, 0, 0⟩ : PricePoint)]
  have hrows : exInc250.rows =
      (List.range 250).map
        (fun (i : Nat) => (⟨(i : Int), 100, 102, 99, exIncClose i, 1000⟩ : PricePoint)) := rfl
  rw [hrows, getD_range_map, if_pos hi]
  simp only
  set L := exVixA.rows.filter
    (fun q => exVixA.inst q.date ≤
      exInc250.inst (⟨(i : Int), 100, 102, 99, exIncClose i, 1000⟩ : PricePoint).date) with hL
  have hmem0 : (⟨((0 : Nat) : Int), 100, 100, 100, 100, 100⟩ : PricePoint) ∈ exVixA.rows := by
    show _ ∈ exConstRows 250
    unfold exConstRows
    exact List.mem_map_of_mem _ (by simp : (0 : Nat) ∈ List.range 250)
  have hpred : (exVixA.inst ((⟨((0 : Nat) : Int), 100, 100, 100, 100, 100⟩ : PricePoint)).date ≤
      exInc250.inst (⟨(i : Int), 100, 102, 99, exIncClose i, 1000⟩ : PricePoint).date) := by
    show ((0 : Nat) : Int) - (0 : Int) ≤ (i : Int) - (0 : Int)
    omega
  have hne : L ≠ [] := by
    refine List.ne_nil_of_mem
      (a := (⟨((0 : Nat) : Int), 100, 100, 100, 100, 100⟩ : PricePoint)) ?_
    rw [hL]
    exact List.mem_filter.mpr ⟨hmem0, by simpa using hpred⟩
  rw [List.getLast?_eq_getLast L hne]
  have hmemL : L.getLast hne ∈ exVixA.rows := List.mem_of_mem_filter (List.getLast_mem hne)
  have hclose : (L.getLast hne).Close = 100 := by
    have h2 : L.getLast hne ∈ exConstRows 250 := hmemL
    unfold exConstRows at h2
    obtain ⟨j, hj, he⟩ := List.mem_map.mp h2
    rw [← he]
  rw [Option.map_some']
  show XQ.fin (L.getLast hne).Close = XQ.fin 100
  rw [hclose]

/-- The VIX change column of the example is never NaN after day 0. -/
theorem exInc_vixchange_not_nan {i : Nat} (hi1 : 1 ≤ i) (hi : i < 250) :
    ((pctChangeX exIncVix).getD i XQ.nan).isna = false := by
  rw [getD_pctChangeX exIncVix i hi1 (by rw [exIncVix_length]; omega),
    exIncVix_getD hi, exIncVix_getD (by omega : i - 1 < 250), XQ_sub_fin,
    xdiv_fin_eq (by decide : ((100 : Frac)).n ≠ 0)]
  rfl

/-! ## Remaining concrete columns -/

/-- The volume column has 250 entries. -/
theorem exIncVols_length : exIncVols.length = 250 := by
  simp [exIncVols]

/-- The high column has 250 entries. -/
theorem exIncHighs_length : exIncHighs.length = 250 := by
  simp [exIncHighs]

/-- The low column has 250 entries. -/
theorem exIncLows_length : exIncLows.length = 250 := by
  simp [exIncLows]

/-- Indexing the constant volume column. -/
theorem exIncVols_getD {j : Nat} (hj : j < 250) : exIncVols.getD j 0 = 1000 := by
  rw [exIncVols, getD_range_map, if_pos hj]

/-- The constant volume 1000 is positive. -/
theorem thousand_isPos : ((1000 : Frac)).isPos := ⟨by decide, by decide⟩

/-- Lagged returns of the rising closes are not NaN once lagged data exists. -/
theorem exInc_ret_not_nan {k j : Nat} (h1 : k ≤ j) (hj : j < 250) :
    ((pctChangeN k exIncCloses).getD j XQ.nan).isna = false := by
  simp only [pctChangeN, exIncCloses_length]
  rw [getD_range_map, if_pos hj, if_neg (by omega : ¬ j < k)]
  rw [exIncCloses_getD (by omega : j - k < 250)]
  exact fdiv_not_nan (exIncClose_isPos (j - k)).1.ne'

/-- Lagged returns of the rising closes are finite once lagged data exists. -/
theorem exInc_ret_isFin {k j : Nat} (h1 : k ≤ j) (hj : j < 250) :
    ((pctChangeN k exIncCloses).getD j XQ.nan).isFin = true := by
  simp only [pctChangeN, exIncCloses_length]
  rw [getD_range_map, if_pos hj, if_neg (by omega : ¬ j < k)]
  rw [exIncCloses_getD (by omega : j - k < 250)]
  exact fdiv_isFin (exIncClose_isPos (j - k)).1.ne'

/-- Full-window moving averages of the rising closes are finite and positive. -/
theorem exInc_sma_pos (w j : Nat) (hw : 0 < w) (hwj : w ≤ j + 1) (hj : j < 250) :
    ∃ s : Frac, (rollingMeanQ w exIncCloses).getD j XQ.nan = XQ.fin s ∧ s.isPos := by
  refine rollingMeanQ_getD_isPos exIncCloses w j hw (by rw [exIncCloses_length]; omega) hwj
    ?_ ?_
  · intro j2 hj1 hj2
    rw [exIncCloses_getD (by omega : j2 < 250)]
    exact Frac_isPos_isNonneg (exIncClose_isPos j2)
  · rw [exIncCloses_getD hj]
    exact exIncClose_isPos j

/-- The 20-day volume average of the example is finite and positive. -/
theorem exInc_volmean_pos (j : Nat) (hwj : 20 ≤ j + 1) (hj : j < 250) :
    ∃ s : Frac, (rollingMeanQ 20 exIncVols).getD j XQ.nan = XQ.fin s ∧ s.isPos := by
  refine rollingMeanQ_getD_isPos exIncVols 20 j (by omega) (by rw [exIncVols_length]; omega)
    hwj ?_ ?_
  · intro j2 hj1 hj2
    rw [exIncVols_getD (by omega : j2 < 250)]
    exact Frac_isPos_isNonneg thousand_isPos
  · rw [exIncVols_getD hj]
    exact thousand_isPos

/-- The 20-day close variance of the example is finite and positive. -/
theorem exInc_var_pos (j : Nat) (hwj : 20 ≤ j + 1) (hj : j < 250) :
    ∃ v : Frac, (rollingVarX 20 (exIncCloses.map XQ.fin)).getD j XQ.nan = XQ.fin v ∧
      v.isPos := by
  refine rollingVarX_getD_isPos exIncCloses 20 j (by omega) (by rw [exIncCloses_length]; omega)
    hwj ?_ ?_
  · intro j2 hj1 hj2
    rw [exIncCloses_getD (by omega : j2 < 250)]
    exact (exIncClose_isPos j2).2
  · rw [exIncCloses_getD hj, exIncCloses_getD (by omega : j - 1 < 250)]
    show (100 + (j : Int)) * 1 ≠ (100 + ((j - 1 : Nat) : Int)) * 1
    have hc : ((j - 1 : Nat) : Int) ≤ (j : Int) - 1 ∨ j = 0 := by omega
    omega

/-- Full-window moving averages of the rising closes are not NaN. -/
theorem exInc_sma_not_nan (w j : Nat) (hw : 0 < w) (hwj : w ≤ j + 1) (hj : j < 250) :
    ((rollingMeanQ w exIncCloses).getD j XQ.nan).isna = false := by
  obtain ⟨s, hs, _⟩ := exInc_sma_pos w j hw hwj hj
  rw [hs]
  rfl

/-- The volume change column of the example is not NaN after day 0. -/
theorem exInc_vchange_not_nan {j : Nat} (h1 : 1 ≤ j) (hj : j < 250) :
    ((pctChangeN 1 exIncVols).getD j XQ.nan).isna = false := by
  simp only [pctChangeN, exIncVols_length]
  rw [getD_range_map, if_pos hj, if_neg (by omega : ¬ j < 1)]
  rw [exIncVols_getD (by omega : j - 1 < 250)]
  exact fdiv_not_nan thousand_isPos.1.ne'

/-- The aligned VIX column of the example is never NaN. -/
theorem exInc_vix_not_nan {j : Nat} (hj : j < 250) :
    (exIncVix.getD j XQ.nan).isna = false := by
  rw [exIncVix_getD hj]
  rfl

/-- The SMA-distance columns of the example are not NaN on full windows. -/
theorem exInc_dist_not_nan (w j : Nat) (hw : 0 < w) (hwj : w ≤ j + 1) (hj : j < 250) :
    ((List.zipWith (fun c s => ((XQ.fin c).sub s).div s) exIncCloses
      (rollingMeanQ w exIncCloses)).getD j XQ.nan).isna = false := by
  rw [getD_zipWith _ _ _ j XQ.nan 0 XQ.nan (by rw [exIncCloses_length]; omega)
    (by rw [rollingMeanQ_length, exIncCloses_length]; omega)]
  obtain ⟨s, hs, hsp⟩ := exInc_sma_pos w j hw hwj hj
  rw [hs, XQ_sub_fin, xdiv_fin_eq hsp.1.ne']
  rfl

/-- The Bollinger width column of the example is not NaN on full windows. -/
theorem exInc_bbw_not_nan (j : Nat) (hwj : 20 ≤ j + 1) (hj : j < 250) :
    ((List.zipWith (fun v m => (v.mul (XQ.fin 4)).div m)
      (rollingVarX 20 (exIncCloses.map XQ.fin))
      (rollingMeanQ 20 exIncCloses)).getD j XQ.nan).isna = false := by
  rw [getD_zipWith _ _ _ j XQ.nan XQ.nan XQ.nan
    (by rw [rollingVarX_length]; simp [exIncCloses_length]; omega)
    (by rw [rollingMeanQ_length, exIncCloses_length]; omega)]
  obtain ⟨v, hv, hvp⟩ := exInc_var_pos j hwj hj
  obtain ⟨m, hm, hmp⟩ := exInc_sma_pos 20 j (by omega) hwj hj
  rw [hv, hm, XQ_mul_fin, xdiv_fin_eq hmp.1.ne']
  rfl

/-- The Bollinger position column of the example is not NaN on full windows. -/
theorem exInc_bbp_not_nan (j : Nat) (hwj : 20 ≤ j + 1) (hj : j < 250) :
    ((List.zipWith3 (fun c m v =>
      ((XQ.fin c).sub (m.sub (v.mul (XQ.fin 2)))).div (v.mul (XQ.fin 4))) exIncCloses
      (rollingMeanQ 20 exIncCloses)
      (rollingVarX 20 (exIncCloses.map XQ.fin))).getD j XQ.nan).isna = false := by
  rw [getD_zipWith3 _ _ _ _ j XQ.nan 0 XQ.nan XQ.nan (by rw [exIncCloses_length]; omega)
    (by rw [rollingMeanQ_length, exIncCloses_length]; omega)
    (by rw [rollingVarX_length]; simp [exIncCloses_length]; omega)]
  obtain ⟨v, hv, hvp⟩ := exInc_var_pos j hwj hj
  obtain ⟨m, hm, hmp⟩ := exInc_sma_pos 20 j (by omega) hwj hj
  rw [hv, hm]
  simp only [XQ_mul_fin, XQ_sub_fin]
  rw [xdiv_fin_eq (Frac_mul_isPos hvp ⟨by decide, by decide⟩).1.ne']
  rfl

/-- The relative volume column of the example is not NaN on full windows. -/
theorem exInc_volrel_not_nan (j : Nat) (hwj : 20 ≤ j + 1) (hj : j < 250) :
    ((List.zipWith (fun v m => (XQ.fin v).div m) exIncVols
      (rollingMeanQ 20 exIncVols)).getD j XQ.nan).isna = false := by
  rw [getD_zipWith _ _ _ j XQ.nan 0 XQ.nan (by rw [exIncVols_length]; omega)
    (by rw [rollingMeanQ_length, exIncVols_length]; omega)]
  obtain ⟨m, hm, hmp⟩ := exInc_volmean_pos j hwj hj
  rw [hm, xdiv_fin_eq hmp.1.ne']
  rfl

/-- The rolling return-volatility columns of the example are not NaN on full windows. -/
theorem exInc_rvol_not_nan (w j : Nat) (hwj : w ≤ j + 1) (hj1 : w ≤ j) (hj : j < 250) :
    ((rollingVarX w (pctChangeN 1 exIncCloses)).getD j XQ.nan).isna = false := by
  refine rollingVarX_getD_not_nan _ w j
    (by rw [pctChangeN_length, exIncCloses_length]; omega) hwj ?_
  intro j2 h1 h2
  exact exInc_ret_isFin (show 1 ≤ j2 by omega) (by omega)

/-- The high-low range column of the example is never NaN. -/
theorem exInc_hlr_not_nan (j : Nat) (hj : j < 250) :
    ((List.zipWith3 (fun h l c => fdiv (h - l) c) exIncHighs exIncLows
      exIncCloses).getD j XQ.nan).isna = false := by
  rw [getD_zipWith3 _ _ _ _ j XQ.nan 0 0 0 (by rw [exIncHighs_length]; omega)
    (by rw [exIncLows_length]; omega) (by rw [exIncCloses_length]; omega)]
  rw [exIncCloses_getD hj]
  exact fdiv_not_nan (exIncClose_isPos j).1.ne'

/-- The next-day return of the example is not NaN before the last day. -/
theorem exInc_ndr_not_nan (j : Nat) (hj2 : j + 1 < 250) :
    (((List.range 250).map (fun i =>
      if i + 1 < 250 then
        XQ.fin (exIncCloses.getD (i + 1) 0 - exIncCloses.getD i 0)
      else XQ.nan)).getD j XQ.nan).isna = false := by
  rw [getD_range_map, if_pos (by omega : j < 250), if_pos hj2]
  rfl


/-! ## The feature frame of the rising example -/

/-- Reading the close column of the rising frame. -/
theorem exInc_closeCol : exInc250.closeCol = Except.ok exIncCloses := by
  show Except.ok (exInc250.rows.map (fun p => p.Close)) = Except.ok exIncCloses
  congr 1

/-- Reading the volume column of the rising frame. -/
theorem exInc_volCol : exInc250.volumeCol = Except.ok exIncVols := by
  show Except.ok (exInc250.rows.map (fun p => p.Volume)) = Except.ok exIncVols
  congr 1

/-- Reading the high column of the rising frame. -/
theorem exInc_highCol : exInc250.highCol = Except.ok exIncHighs := by
  show Except.ok (exInc250.rows.map (fun p => p.High)) = Except.ok exIncHighs
  congr 1

/-- Reading the low column of the rising frame. -/
theorem exInc_lowCol : exInc250.lowCol = Except.ok exIncLows := by
  show Except.ok (exInc250.rows.map (fun p => p.Low)) = Except.ok exIncLows
  congr 1

/-- Forward-filling the example VIX frame onto the rising frame succeeds. -/
theorem exInc_reindex : reindexFfill exVixA exInc250 =
    Except.ok (exInc250.rows.map (fun p =>
      ((exVixA.rows.filter (fun q => exVixA.inst q.date ≤ exInc250.inst p.date)).getLast?).map
        (fun q => q.Close))) := by
  unfold reindexFfill
  rw [if_neg (by decide), if_neg (by decide), if_neg (by decide)]

/-- The VIX feature column of the rising frame with the example VIX series. -/
theorem exInc_mlvix (n : Nat) :
    ml_vix_column exInc250 (some exVixA) n = Except.ok exIncVix := by
  simp only [ml_vix_column]
  rw [if_pos (by decide : ¬ exVixA.rows.isEmpty = true)]
  rw [exInc_reindex, exbind_ok]
  rfl

/-- Feature building on the rising frame with the example VIX series succeeds. -/
theorem exInc_create : create_ml_features exInc250 (some exVixA) =
    Except.ok ((ml_feature_rows exIncCloses exIncVols exIncHighs exIncLows exIncVix).filter
      (fun r => ¬ r.hasNa)) := by
  unfold create_ml_features
  rw [exInc_closeCol, exbind_ok]
  rw [exInc_volCol, exbind_ok, exInc_highCol, exbind_ok, exInc_lowCol, exbind_ok]
  rw [exInc_mlvix, exbind_ok]

/-- At least the last 50 feature rows of the rising example survive `dropna`. -/
theorem exInc_filter_long :
    50 ≤ ((ml_feature_rows exIncCloses exIncVols exIncHighs exIncLows exIncVix).filter
      (fun r => ¬ r.hasNa)).length := by
  unfold ml_feature_rows
  rw [← List.countP_eq_length_filter]
  rw [List.countP_map]
  simp only [exIncCloses_length]
  have hsub : List.Sublist (List.range' 199 50) (List.range 250) := by decide
  have hlen50 : (List.range' 199 50).length = 50 := by decide
  refine le_trans ?_ (List.Sublist.countP_le _ hsub)
  rw [List.countP_eq_length.mpr ?hall, hlen50]
  case hall =>
    intro a ha
    have hmem := List.mem_range'_1.mp ha
    have h199 : 199 ≤ a := by omega
    have h248 : a ≤ 248 := by omega
    simp only [Function.comp_apply, MLRow.hasNa]
    simp only [decide_eq_true_eq]
    rw [exInc_ret_not_nan (by omega) (by omega),
      exInc_ret_not_nan (by omega) (by omega),
      exInc_ret_not_nan (by omega) (by omega),
      exInc_ret_not_nan (by omega) (by omega),
      exInc_ret_not_nan (by omega) (by omega),
      exInc_sma_not_nan 20 a (by omega) (by omega) (by omega),
      exInc_sma_not_nan 50 a (by omega) (by omega) (by omega),
      exInc_sma_not_nan 200 a (by omega) (by omega) (by omega),
      exInc_dist_not_nan 20 a (by omega) (by omega) (by omega),
      exInc_dist_not_nan 50 a (by omega) (by omega) (by omega),
      exInc_dist_not_nan 200 a (by omega) (by omega) (by omega),
      exInc_rsi_not_nan (by omega) (by omega),
      exInc_macd_not_nan (by omega),
      exInc_bbw_not_nan a (by omega) (by omega),
      exInc_bbp_not_nan a (by omega) (by omega),
      exInc_vchange_not_nan (by omega) (by omega),
      exInc_volrel_not_nan a (by omega) (by omega),
      exInc_rvol_not_nan 10 a (by omega) (by omega) (by omega),
      exInc_rvol_not_nan 20 a (by omega) (by omega) (by omega),
      exInc_hlr_not_nan a (by omega),
      exInc_vix_not_nan (by omega),
      exInc_vixchange_not_nan (by omega) (by omega),
      exInc_ndr_not_nan a (by omega)]
    decide


/-- With the VIX series present, the ML body on the rising frame votes +1. -/
theorem exInc_mlbody_some : ml_body exInc250 (some exVixA) exMlOk =
    Except.ok ⟨1, "Bullish"⟩ := by
  unfold ml_body
  rw [exInc_create, exbind_ok]
  rw [if_neg (by have := exInc_filter_long; omega)]
  rfl

/-- With the VIX series missing, the ML body reports Insufficient Data. -/
theorem exInc_mlbody_none : ml_body exInc250 none exMlOk =
    Except.ok ⟨0, "Insufficient Data"⟩ := by
  unfold ml_body
  have hcf : create_ml_features exInc250 none =
      Except.ok ((ml_feature_rows exIncCloses exIncVols exIncHighs exIncLows
        (List.replicate exIncCloses.length XQ.nan)).filter (fun r => ¬ r.hasNa)) := by
    unfold create_ml_features
    rw [exInc_closeCol, exbind_ok, exInc_volCol, exbind_ok, exInc_highCol, exbind_ok,
      exInc_lowCol, exbind_ok]
    rw [mlvix_none, exbind_ok]
  rw [hcf, exbind_ok]
  have hnil : (ml_feature_rows exIncCloses exIncVols exIncHighs exIncLows
      (List.replicate exIncCloses.length XQ.nan)).filter (fun r => ¬ r.hasNa) = [] := by
    apply List.filter_eq_nil_iff.mpr
    intro x hx
    unfold ml_feature_rows at hx
    simp only [List.mem_map, List.mem_range] at hx
    obtain ⟨i, hi, rfl⟩ := hx
    simp [MLRow.hasNa, getD_replicate_self, XQ.isna]
  rw [hnil]
  rfl

/-- With the VIX series present, the ML model votes +1 on the rising frame. -/
theorem exInc_ml_bullish : get_ml_vote exInc250 (some exVixA) exMlOk =
    Except.ok ⟨1, "Bullish"⟩ := by
  unfold get_ml_vote
  rw [if_neg (by decide : ¬ exInc250.len < 250), exInc_mlbody_some]

/-- With the VIX series missing, the ML model votes 0 on the rising frame. -/
theorem exInc_ml_none : get_ml_vote exInc250 none exMlOk =
    Except.ok ⟨0, "Insufficient Data"⟩ := by
  unfold get_ml_vote
  rw [if_neg (by decide : ¬ exInc250.len < 250), exInc_mlbody_none]

/-- C7 (amended): with the VIX series missing the ensemble records the
VIX Regime entry as vote 0 with signal "No Data" (the model is not
invoked); with the VIX series present but empty the model itself returns
vote 0 with "No VIX Data"; the eight models other than ML and VIX Regime
do not receive the VIX series, so their breakdown entries are identical
between a run with any VIX input and a run without it; the ML model does
receive the VIX series, and with it missing or empty it can only return
vote 0. -/
theorem C7_vix_isolation (d : Frame) (sec : Option (List (String × Frame)))
    (g : GarchOracle) (m : MLOracle) (v : Frame) :
    (∀ r, run_ensemble d none sec g m = Except.ok r →
       r.breakdown.getD 7 beDefault = ⟨"VIX Regime", 0, "±3", "No Data"⟩) ∧
    (v.rows.isEmpty = true → get_vix_regime_vote d v = Except.ok ⟨0, "No VIX Data"⟩) ∧
    (∀ vd r r2, run_ensemble d vd sec g m = Except.ok r →
       run_ensemble d none sec g m = Except.ok r2 →
       ∀ i ∈ ([0, 1, 2, 4, 5, 6, 8, 9] : List Nat),
         r.breakdown.getD i beDefault = r2.breakdown.getD i beDefault) ∧
    (∀ r, get_ml_vote d none m = Except.ok r → r.vote = 0) ∧
    (∀ r, v.rows.isEmpty = true → get_ml_vote d (some v) m = Except.ok r →
       r.vote = 0) := by
  refine ⟨?_, ?_, ?_, ?_, ?_⟩
  · intro r h
    obtain ⟨a1, a2, a3, a4, a5, a6, a7, a8, a9, a10,
      _, _, _, _, _, _, _, h8, _, _, hbd, _⟩ :=
      run_ensemble_ok_decomp d none sec g m r h
    have ha8 : a8 = ⟨0, "No Data"⟩ := by
      have : vix_entry_call d none = Except.ok ⟨0, "No Data"⟩ := rfl
      rw [this] at h8
      exact (Except.ok.inj h8).symm
    rw [hbd, ha8]
    rfl
  · intro hE
    unfold get_vix_regime_vote
    rw [if_pos (Or.inl hE)]
  · intro vd r r2 h h2 i hi
    obtain ⟨a1, a2, a3, a4, a5, a6, a7, a8, a9, a10,
      k1, k2, k3, k4, k5, k6, k7, k8, k9, k10, hbd, _⟩ :=
      run_ensemble_ok_decomp d vd sec g m r h
    obtain ⟨b1, b2, b3, b4, b5, b6, b7, b8, b9, b10,
      j1, j2, j3, j4, j5, j6, j7, j8, j9, j10, hbd2, _⟩ :=
      run_ensemble_ok_decomp d none sec g m r2 h2
    have e1 : a1 = b1 := by rw [k1] at j1; exact Except.ok.inj j1
    have e2 : a2 = b2 := by rw [k2] at j2; exact Except.ok.inj j2
    have e3 : a3 = b3 := by rw [k3] at j3; exact Except.ok.inj j3
    have e5 : a5 = b5 := by rw [k5] at j5; exact Except.ok.inj j5
    have e6 : a6 = b6 := by rw [k6] at j6; exact Except.ok.inj j6
    have e7 : a7 = b7 := by rw [k7] at j7; exact Except.ok.inj j7
    have e9 : a9 = b9 := by rw [k9] at j9; exact Except.ok.inj j9
    have e10 : a10 = b10 := by rw [k10] at j10; exact Except.ok.inj j10
    rw [hbd, hbd2, e1, e2, e3, e5, e6, e7, e9, e10]
    fin_cases hi <;> rfl
  · intro r h
    exact get_ml_vote_no_vix_zero d none m (Or.inl rfl) r h
  · intro r hE h
    exact get_ml_vote_no_vix_zero d (some v) m (Or.inr ⟨v, rfl, hE⟩) r h

/-- C7 counterexample: with the VIX series missing the ensemble records
the VIX Regime entry with signal "No Data", not the claimed "No VIX
Data"; and another model's vote does change between otherwise-identical
runs: on the 250-day rising frame the ML model votes +1 when the VIX
series is present but 0 when it is missing, all other inputs equal. -/
theorem C7_counterexample :
    (run_ensemble exEmpty none none exGarchOk exMlOk = Except.ok exResult0 ∧
     exResult0.breakdown.getD 7 beDefault = ⟨"VIX Regime", 0, "±3", "No Data"⟩ ∧
     "No Data" ≠ "No VIX Data") ∧
    (get_ml_vote exInc250 (some exVixA) exMlOk = Except.ok ⟨1, "Bullish"⟩ ∧
     get_ml_vote exInc250 none exMlOk = Except.ok ⟨0, "Insufficient Data"⟩ ∧
     (1 : Int) ≠ 0) :=
  ⟨⟨by decide, by decide, by decide⟩,
   exInc_ml_bullish, exInc_ml_none, by decide⟩

/-- C7 witness: the empty frame run with and without an (empty) VIX
frame. -/
theorem C7_vix_isolation_witness :
    exEmpty.rows.isEmpty = true ∧
    get_vix_regime_vote exEmpty exEmpty = Except.ok ⟨0, "No VIX Data"⟩ ∧
    run_ensemble exEmpty (some exEmpty) none exGarchOk exMlOk = Except.ok exResult0v ∧
    run_ensemble exEmpty none none exGarchOk exMlOk = Except.ok exResult0 ∧
    exResult0v.breakdown.getD 0 beDefault = exResult0.breakdown.getD 0 beDefault ∧
    exResult0.breakdown.getD 7 beDefault = ⟨"VIX Regime", 0, "±3", "No Data"⟩ :=
  ⟨by decide, (C7_vix_isolation exEmpty none exGarchOk exMlOk exEmpty).2.1 (by decide),
   by decide, by decide,
   (C7_vix_isolation exEmpty none exGarchOk exMlOk exEmpty).2.2.1
     (some exEmpty) exResult0v exResult0 (by decide) (by decide) 0 (by decide),
   (C7_vix_isolation exEmpty none exGarchOk exMlOk exEmpty).1 exResult0 (by decide)⟩

/-- Inversion of a successful `Except` bind. -/
theorem exbind_ok_inv {e a b : Type} {x : Except e a} {f : a → Except e b} {y : b}
    (h : (x >>= f) = Except.ok y) : ∃ v, x = Except.ok v ∧ f v = Except.ok y := by
  cases x
  · rw [exbind_err] at h; cases h
  · rw [exbind_ok] at h; exact ⟨_, rfl, h⟩

/-- The RSI vote is -1, 0 or +1. -/
theorem rsi_vote_range (d : Frame) (r : VoteResult)
    (h : get_rsi_vote d = Except.ok r) : -1 ≤ r.vote ∧ r.vote ≤ 1 := by
  unfold get_rsi_vote at h
  split at h
  · injection h with h; subst h; decide
  · obtain ⟨closes, hc, h⟩ := exbind_ok_inv h
    try simp only [] at h
    repeat' split at h
    all_goals (injection h with h; subst h; decide)

/-- The Mean Reversion vote is -1, 0 or +1. -/
theorem mean_reversion_vote_range (d : Frame) (r : VoteResult)
    (h : get_mean_reversion_vote d = Except.ok r) : -1 ≤ r.vote ∧ r.vote ≤ 1 := by
  unfold get_mean_reversion_vote at h
  split at h
  · injection h with h; subst h; decide
  · obtain ⟨closes, hc, h⟩ := exbind_ok_inv h
    try simp only [] at h
    repeat' split at h
    all_goals (injection h with h; subst h; decide)

/-- The GARCH try-body vote is -3, 0 or +3. -/
theorem garch_body_range (d : Frame) (g : GarchOracle) (r : VoteResult)
    (h : garch_body d g = Except.ok r) : -3 ≤ r.vote ∧ r.vote ≤ 3 := by
  unfold garch_body at h
  obtain ⟨closes, hc, h⟩ := exbind_ok_inv h
  try simp only [] at h
  split at h
  · injection h with h; subst h; decide
  · obtain ⟨vols, hv, h⟩ := exbind_ok_inv h
    try simp only [] at h
    split at h
    all_goals (injection h with h; subst h; decide)

/-- The GARCH vote is -3, 0 or +3. -/
theorem garch_vote_range (d : Frame) (g : GarchOracle) (r : VoteResult)
    (h : get_garch_vote d g = Except.ok r) : -3 ≤ r.vote ∧ r.vote ≤ 3 := by
  unfold get_garch_vote at h
  split at h
  · injection h with h; subst h; decide
  · split at h
    · injection h with h; subst h; decide
    · rename_i rb hb
      injection h with h
      subst h
      exact garch_body_range d g _ hb

/-- The ML try-body vote is -1, 0 or +1. -/
theorem ml_body_range (d : Frame) (vx : Option Frame) (m : MLOracle) (r : VoteResult)
    (h : ml_body d vx m = Except.ok r) : -1 ≤ r.vote ∧ r.vote ≤ 1 := by
  unfold ml_body at h
  obtain ⟨df, hdf, h⟩ := exbind_ok_inv h
  try simp only [] at h
  split at h
  · injection h with h; subst h; decide
  · obtain ⟨pp, hp, h⟩ := exbind_ok_inv h
    try simp only [] at h
    repeat' split at h
    all_goals (injection h with h; subst h; decide)

/-- The ML vote is -1, 0 or +1. -/
theorem ml_vote_range (d : Frame) (vx : Option Frame) (m : MLOracle) (r : VoteResult)
    (h : get_ml_vote d vx m = Except.ok r) : -1 ≤ r.vote ∧ r.vote ≤ 1 := by
  unfold get_ml_vote at h
  split at h
  · injection h with h; subst h; decide
  · split at h
    · injection h with h; subst h; decide
    · rename_i rb hb
      injection h with h
      subst h
      exact ml_body_range d vx m _ hb

/-- The Factor Model vote is 0 or +1, never negative. -/
theorem factor_vote_range (d : Frame) (r : VoteResult)
    (h : get_factor_vote d = Except.ok r) : 0 ≤ r.vote ∧ r.vote ≤ 1 := by
  unfold get_factor_vote at h
  split at h
  · injection h with h; subst h; decide
  · obtain ⟨closes, hc, h⟩ := exbind_ok_inv h
    try simp only [] at h
    repeat' split at h
    all_goals (injection h with h; subst h; decide)

/-- The Technical Support vote is -3, 0 or +3. -/
theorem tech_support_vote_range (d : Frame) (r : VoteResult)
    (h : get_technical_support_vote d = Except.ok r) : -3 ≤ r.vote ∧ r.vote ≤ 3 := by
  unfold get_technical_support_vote at h
  split at h
  · injection h with h; subst h; decide
  · obtain ⟨highs, hh, h⟩ := exbind_ok_inv h
    try simp only [] at h
    obtain ⟨lows, hl, h⟩ := exbind_ok_inv h
    try simp only [] at h
    obtain ⟨closes, hc, h⟩ := exbind_ok_inv h
    try simp only [] at h
    repeat' split at h
    all_goals (injection h with h; subst h; decide)

/-- The MACD + Bollinger vote is -1, 0 or +1. -/
theorem macd_bb_vote_range (d : Frame) (r : VoteResult)
    (h : get_macd_bb_vote d = Except.ok r) : -1 ≤ r.vote ∧ r.vote ≤ 1 := by
  unfold get_macd_bb_vote at h
  split at h
  · injection h with h; subst h; decide
  · obtain ⟨closes, hc, h⟩ := exbind_ok_inv h
    try simp only [] at h
    repeat' split at h
    all_goals (injection h with h; subst h; decide)

/-- The VIX Regime try-body vote lies in [-3, 3] (its actual range is
[-2, 3]). -/
theorem vix_body_range (d v : Frame) (r : VoteResult)
    (h : vix_regime_body d v = Except.ok r) : -3 ≤ r.vote ∧ r.vote ≤ 3 := by
  unfold vix_regime_body at h
  obtain ⟨aligned, ha, h⟩ := exbind_ok_inv h
  try simp only [] at h
  split at h
  · injection h with h; subst h; decide
  · obtain ⟨spyCloses, hs, h⟩ := exbind_ok_inv h
    try simp only [] at h
    repeat' split at h
    all_goals (injection h with h; subst h; decide)

/-- The VIX Regime vote lies in [-3, 3]. -/
theorem vix_vote_range (d v : Frame) (r : VoteResult)
    (h : get_vix_regime_vote d v = Except.ok r) : -3 ≤ r.vote ∧ r.vote ≤ 3 := by
  unfold get_vix_regime_vote at h
  split at h
  · injection h with h; subst h; decide
  · split at h
    · injection h with h; subst h; decide
    · split at h
      · injection h with h; subst h; decide
      · rename_i rb hb
        injection h with h
        subst h
        exact vix_body_range d v _ hb

/-- The Market Regime vote lies in [-2, 2]. -/
theorem market_regime_vote_range (d : Frame) (r : VoteResult)
    (h : get_market_regime_vote d = Except.ok r) : -2 ≤ r.vote ∧ r.vote ≤ 2 := by
  unfold get_market_regime_vote at h
  split at h
  · injection h with h; subst h; decide
  · obtain ⟨closes, hc, h⟩ := exbind_ok_inv h
    try simp only [] at h
    obtain ⟨highs, hh, h⟩ := exbind_ok_inv h
    try simp only [] at h
    obtain ⟨lows, hl, h⟩ := exbind_ok_inv h
    try simp only [] at h
    repeat' split at h
    all_goals (injection h with h; subst h; decide)

/-- The Sector Rotation try-body vote lies in [-2, 2]. -/
theorem sector_body_range (d : Frame) (s : List (String × Frame)) (r : VoteResult)
    (h : sector_body d s = Except.ok r) : -2 ≤ r.vote ∧ r.vote ≤ 2 := by
  unfold sector_body at h
  obtain ⟨moms, hm, h⟩ := exbind_ok_inv h
  try simp only [] at h
  repeat' split at h
  all_goals (injection h with h; subst h; decide)

/-- The Sector Rotation vote lies in [-2, 2]. -/
theorem sector_vote_range (d : Frame) (s : List (String × Frame)) (r : VoteResult)
    (h : get_sector_rotation_vote d s = Except.ok r) : -2 ≤ r.vote ∧ r.vote ≤ 2 := by
  unfold get_sector_rotation_vote at h
  split at h
  · injection h with h; subst h; decide
  · split at h
    · injection h with h; subst h; decide
    · split at h
      · injection h with h; subst h; decide
      · rename_i rb hb
        injection h with h
        subst h
        exact sector_body_range d s _ hb

/-- The recorded VIX entry (stub or model) lies in [-3, 3]. -/
theorem vix_entry_range (d : Frame) (vx : Option Frame) (r : VoteResult)
    (h : vix_entry_call d vx = Except.ok r) : -3 ≤ r.vote ∧ r.vote ≤ 3 := by
  unfold vix_entry_call at h
  cases vx
  · injection h with h; subst h; decide
  · exact vix_vote_range d _ r h

/-- The recorded Sector entry (stub or model) lies in [-2, 2]. -/
theorem sector_entry_range (d : Frame) (sx : Option (List (String × Frame)))
    (r : VoteResult) (h : sector_entry_call d sx = Except.ok r) :
    -2 ≤ r.vote ∧ r.vote ≤ 2 := by
  unfold sector_entry_call at h
  cases sx
  · injection h with h; subst h; decide
  · rename_i s
    change (if ¬ s.isEmpty = true then get_sector_rotation_vote d s
            else Except.ok ⟨0, "No Data"⟩) = Except.ok r at h
    split at h
    · exact sector_vote_range d s r h
    · injection h with h; subst h; decide

/-- C10: every breakdown entry's vote magnitude is bounded by its
registered weight cap, the Factor Model's vote is never negative, and
the net vote always lies within [-20, +20]. -/
theorem C10_vote_bounds (data : Frame) (vixData : Option Frame)
    (sectorData : Option (List (String × Frame)))
    (g : GarchOracle) (m : MLOracle) (r : EnsembleResult)
    (h : run_ensemble data vixData sectorData g m = Except.ok r) :
    (∀ b ∈ r.breakdown, -(weight_cap b.model) ≤ b.vote ∧ b.vote ≤ weight_cap b.model) ∧
    (∀ b ∈ r.breakdown, b.model = "Factor Model" → 0 ≤ b.vote ∧ b.vote ≤ 1) ∧
    -20 ≤ r.net_vote ∧ r.net_vote ≤ 20 := by
  obtain ⟨a1, a2, a3, a4, a5, a6, a7, a8, a9, a10,
    k1, k2, k3, k4, k5, k6, k7, k8, k9, k10, hbd, hnet⟩ :=
    run_ensemble_ok_decomp data vixData sectorData g m r h
  have w1 := rsi_vote_range data a1 k1
  have w2 := mean_reversion_vote_range data a2 k2
  have w3 := garch_vote_range data g a3 k3
  have w4 := ml_vote_range data vixData m a4 k4
  have w5 := factor_vote_range data a5 k5
  have w6 := tech_support_vote_range data a6 k6
  have w7 := macd_bb_vote_range data a7 k7
  have w8 := vix_entry_range data vixData a8 k8
  have w9 := market_regime_vote_range data a9 k9
  have w10 := sector_entry_range data sectorData a10 k10
  refine ⟨?_, ?_, ?_, ?_⟩
  · intro b hb
    rw [hbd] at hb
    simp only [List.mem_cons, List.not_mem_nil, or_false] at hb
    rcases hb with rfl | rfl | rfl | rfl | rfl | rfl | rfl | rfl | rfl | rfl <;>
      (simp only [weight_cap]; simp; omega)
  · intro b hb hfm
    rw [hbd] at hb
    simp only [List.mem_cons, List.not_mem_nil, or_false] at hb
    rcases hb with rfl | rfl | rfl | rfl | rfl | rfl | rfl | rfl | rfl | rfl <;>
      simp at hfm ⊢ <;> omega
  · rw [hnet, hbd]
    simp only [List.map_cons, List.map_nil, List.sum_cons, List.sum_nil]
    omega
  · rw [hnet, hbd]
    simp only [List.map_cons, List.map_nil, List.sum_cons, List.sum_nil]
    omega

/-- C10 witness: the all-abstaining run on the empty frame. -/
theorem C10_vote_bounds_witness :
    run_ensemble exEmpty none none exGarchOk exMlOk = Except.ok exResult0 ∧
    (∀ b ∈ exResult0.breakdown,
      -(weight_cap b.model) ≤ b.vote ∧ b.vote ≤ weight_cap b.model) ∧
    -20 ≤ exResult0.net_vote ∧ exResult0.net_vote ≤ 20 :=
  ⟨by decide,
   (C10_vote_bounds exEmpty none none exGarchOk exMlOk exResult0 (by decide)).1,
   (C10_vote_bounds exEmpty none none exGarchOk exMlOk exResult0 (by decide)).2.2.1,
   (C10_vote_bounds exEmpty none none exGarchOk exMlOk exResult0 (by decide)).2.2.2⟩

/-- Filtering a projected list is projecting the filtered list. -/
theorem filter_map_date (l : List PricePoint) (p : Int → Bool) :
    (l.map (fun x => x.date)).filter p
      = (l.filter (fun x => p x.date)).map (fun x => x.date) := by
  induction l with
  | nil => rfl
  | cons a l ih =>
    simp only [List.map_cons, List.filter_cons]
    by_cases h : p a.date
    · simp [h, ih]
    · simp [h, ih]

/-- On a strictly sorted list, the last element of the at-or-below
filter at an attained bound is the element attaining it. -/
theorem getLast_filter_le_mem (l : List PricePoint) (x : PricePoint)
    (hs : List.Pairwise (fun a b => a.date < b.date) l)
    (hx : x ∈ l) :
    (l.filter (fun p => p.date ≤ x.date)).getLast? = some x := by
  induction l with
  | nil => cases hx
  | cons a l ih =>
    rcases List.pairwise_cons.mp hs with ⟨ha, hl⟩
    rcases List.mem_cons.mp hx with rfl | hx2
    · have hfl : l.filter (fun p => p.date ≤ x.date) = [] := by
        apply List.filter_eq_nil_iff.mpr
        intro p hp
        have := ha p hp
        simp only [decide_eq_true_eq]
        omega
      simp [List.filter_cons, hfl]
    · have hax : a.date < x.date := ha x hx2
      have htail := ih hl hx2
      rw [List.filter_cons, if_pos (by simp; omega)]
      cases hfilter : l.filter (fun p => decide (p.date ≤ x.date)) with
      | nil => rw [hfilter] at htail; cases htail
      | cons b l3 =>
        rw [hfilter] at htail
        rw [List.getLast?_cons_cons]
        exact htail

/-- On a strictly sorted list, looking up a member by its date returns
that member. -/
theorem head_filter_eq_date (l : List PricePoint) (x : PricePoint)
    (hs : List.Pairwise (fun a b => a.date < b.date) l)
    (hx : x ∈ l) :
    (l.filter (fun p => p.date = x.date)).head? = some x := by
  induction l with
  | nil => cases hx
  | cons a l ih =>
    rcases List.pairwise_cons.mp hs with ⟨ha, hl⟩
    rcases List.mem_cons.mp hx with rfl | hx2
    · rw [List.filter_cons, if_pos (by simp)]
      rfl
    · have hax : a.date < x.date := ha x hx2
      rw [List.filter_cons, if_neg (by simp; omega)]
      exact ih hl hx2

/-- Shared tail of `get_next_day_return` and its specification: from the
snapped day `x`, both find the first strictly later day and compute the
same percentage return. -/
theorem next_day_tail (d : Frame) (x : PricePoint)
    (hs : List.Pairwise (fun a b => a.date < b.date) d.rows)
    (hc : d.hasClose = true) (hx : x ∈ d.rows) :
    (match ((d.rows.map (fun p => p.date)).filter (fun dd => x.date < dd)).head? with
     | none => Except.ok none
     | some nextDate => do
         let targetClose ← d.locClose x.date
         let nextClose ← d.locClose nextDate
         Except.ok (some ((fdiv (nextClose - targetClose) targetClose).mul (XQ.fin 100),
           nextDate)))
    = Except.ok (match (d.rows.filter (fun p => x.date < p.date)).head? with
       | none => none
       | some p1 => some ((fdiv (p1.Close - x.Close) x.Close).mul (XQ.fin 100), p1.date)) := by
  rw [filter_map_date, List.head?_map]
  cases hh : (d.rows.filter (fun p => x.date < p.date)).head? with
  | none => rfl
  | some p1 =>
    have hp1mem : p1 ∈ d.rows := by
      have hmemf : p1 ∈ d.rows.filter (fun p => x.date < p.date) := by
        cases hfl : d.rows.filter (fun p => x.date < p.date) with
        | nil => rw [hfl] at hh; cases hh
        | cons b l3 =>
          rw [hfl] at hh
          injection hh with hh
          subst hh
          simp
      exact (List.mem_filter.mp hmemf).1
    have hl1 : d.locClose x.date = Except.ok x.Close := by
      unfold Frame.locClose
      rw [if_pos hc, head_filter_eq_date d.rows x hs hx]
    have hl2 : d.locClose p1.date = Except.ok p1.Close := by
      unfold Frame.locClose
      rw [if_pos hc, head_filter_eq_date d.rows p1 hs hp1mem]
    simp only [Option.map_some']
    rw [hl1, exbind_ok, hl2, exbind_ok]

/-- C8: on a strictly sorted master series with a `Close` column,
`get_next_day_return` computes exactly the specification: the
percentage return from the trading day at-or-before the cutoff to the
first trading day strictly after it, plus that day's label, and
`(None, None)` when either day does not exist. -/
theorem C8_next_day_return (d : Frame) (t : Timestamp)
    (hs : List.Pairwise (fun a b => a.date < b.date) d.rows)
    (hc : d.hasClose = true) :
    get_next_day_return d t = Except.ok (next_day_return_spec d t) := by
  unfold get_next_day_return next_day_return_spec
  simp only
  by_cases hmem : ((d.rows.map (fun p => p.date)).any
      (fun dd => d.inst dd = (normalize_cutoff d.tz t).instant)) = true
  · rw [if_pos hmem]
    obtain ⟨dd, hddmem, hinst⟩ := List.any_eq_true.mp hmem
    obtain ⟨x, hxmem, hxdd⟩ := List.mem_map.mp hddmem
    have hinst2 : d.inst x.date = (normalize_cutoff d.tz t).instant := by
      rw [hxdd]; exact of_decide_eq_true hinst
    have hxdate : x.date = (normalize_cutoff d.tz t).instant + d.tz.getD 0 := by
      unfold Frame.inst at hinst2
      omega
    have hfc : d.rows.filter
        (fun p => d.inst p.date ≤ (normalize_cutoff d.tz t).instant)
        = d.rows.filter (fun p => p.date ≤ x.date) := by
      apply List.filter_congr
      intro p _
      unfold Frame.inst
      simp only [decide_eq_decide]
      omega
    rw [hfc, getLast_filter_le_mem d.rows x hs hxmem]
    rw [← hxdate]
    exact next_day_tail d x hs hc hxmem
  · rw [if_neg hmem]
    rw [filter_map_date, List.getLast?_map]
    cases hlast : (d.rows.filter
        (fun p => d.inst p.date ≤ (normalize_cutoff d.tz t).instant)).getLast? with
    | none => rfl
    | some p0 =>
      have hp0mem : p0 ∈ d.rows := by
        obtain ⟨hne, heq⟩ := List.mem_getLast?_eq_getLast
          (show p0 ∈ (d.rows.filter
            (fun p => d.inst p.date ≤ (normalize_cutoff d.tz t).instant)).getLast?
           from hlast)
        have : p0 ∈ d.rows.filter
            (fun p => d.inst p.date ≤ (normalize_cutoff d.tz t).instant) := by
          rw [heq]
          exact List.getLast_mem hne
        exact (List.mem_filter.mp this).1
      simp only [Option.map_some']
      exact next_day_tail d p0 hs hc hp0mem

/-- C8 witness: cutoff 25 snaps to day 20 and the next day is 30, a 50%
close-to-close move. -/
theorem C8_next_day_return_witness :
    List.Pairwise (fun a b => a.date < b.date) exAware3.rows ∧
    exAware3.hasClose = true ∧
    get_next_day_return exAware3 ⟨25, none⟩
      = Except.ok (next_day_return_spec exAware3 ⟨25, none⟩) ∧
    next_day_return_spec exAware3 ⟨25, none⟩ = some (XQ.fin 50, 30) :=
  ⟨by decide, rfl, C8_next_day_return exAware3 ⟨25, none⟩ (by decide) rfl, by decide⟩
